import Mathlib

/-
Verification of the temporal range/round/truncate/timezone-conversion engine
of the polars repository excerpt.

The Rust sources under crates/polars-time, crates/polars-plan,
crates/polars-ops and polars/polars-arrow are shallowly embedded below.
Machine integers (i64/i32) are modelled as unbounded Int; the claims under
study never exercise overflow.  Rust division and remainder truncate toward
zero, so they are modelled by Int.tdiv and Int.tmod; a remainder with a zero
divisor aborts in Rust and is modelled by an explicit panic-shaped error.
Code of the repository that is not part of the excerpt (the Duration parser
and arithmetic in polars-time/src/windows, the Window bucket logic, the
convert_to_naive_local kernel and the chrono timezone database) is either
modelled from the specification (doc comments starting with
"Modelled from the spec:") or taken as an injected external collaborator.
-/

namespace Polars

/-- Error kinds of the engine, following section 7 of the specification.
A Rust panic (process abort) is represented by its own constructor so that
aborting is distinguishable from returning an error value. -/
inductive PolarsError where
  | computeError (msg : String)
  | invalidOperation (msg : String)
  | parseError (msg : String)
  | panicError (msg : String)
deriving DecidableEq, Repr

/-- Result type mirroring PolarsResult from the source. -/
inductive PolarsRes (α : Type) where
  | ok (val : α)
  | err (e : PolarsError)
deriving DecidableEq, Repr

def PolarsRes.bind {α β : Type} : PolarsRes α → (α → PolarsRes β) → PolarsRes β
  | .ok a, f => f a
  | .err e, _ => .err e

def PolarsRes.map {α β : Type} (f : α → β) : PolarsRes α → PolarsRes β
  | .ok a => .ok (f a)
  | .err e => .err e

/-- Rust integer division truncates toward zero. -/
def rustDiv (a b : Int) : Int := Int.tdiv a b

/-- Rust integer remainder truncates toward zero (sign of the dividend). -/
def rustRem (a b : Int) : Int := Int.tmod a b

/-- Time units of an instant column. -/
inductive TimeUnit where
  | nanoseconds
  | microseconds
  | milliseconds
deriving DecidableEq, Repr

/-- Closed-endpoint option of a range. -/
inductive ClosedWindow where
  | both
  | left
  | right
  | none
deriving DecidableEq, Repr

/-- Sortedness flag of a column. -/
inductive IsSorted where
  | ascending
  | descending
  | not
deriving DecidableEq, Repr

/-- A named timezone, identified by its IANA name; validity and semantics
are supplied by the external timezone authority. -/
abbrev Tz := String

def NANOSECONDS_IN_DAY : Int := 86400000000000
def MICROSECONDS_IN_DAY : Int := 86400000000
def MILLISECONDS_IN_DAY : Int := 86400000

/- ---------------------------------------------------------------------
Civil (proleptic Gregorian) calendar, needed by the month component of
calendar-aware duration addition.  Standard days-from-civil conversion.
--------------------------------------------------------------------- -/

def isLeapYear (y : Int) : Bool := (y % 4 == 0 && y % 100 != 0) || y % 400 == 0

def daysInMonth (y m : Int) : Int :=
  if m = 1 then 31
  else if m = 2 then (if isLeapYear y then 29 else 28)
  else if m = 3 then 31
  else if m = 4 then 30
  else if m = 5 then 31
  else if m = 6 then 30
  else if m = 7 then 31
  else if m = 8 then 31
  else if m = 9 then 30
  else if m = 10 then 31
  else if m = 11 then 30
  else 31

/-- Days since 1970-01-01 of the civil date y-m-d. -/
def daysFromCivil (y m d : Int) : Int :=
  let y := if m ≤ 2 then y - 1 else y
  let era := y / 400
  let yoe := y - era * 400
  let doy := (153 * (m + (if m > 2 then -3 else 9)) + 2) / 5 + d - 1
  let doe := yoe * 365 + yoe / 4 - yoe / 100 + doy
  era * 146097 + doe - 719468

/-- Civil date (year, month, day) of a count of days since 1970-01-01. -/
def civilFromDays (z : Int) : Int × Int × Int :=
  let z := z + 719468
  let era := z / 146097
  let doe := z - era * 146097
  let yoe := (doe - doe / 1460 + doe / 36524 - doe / 146096) / 365
  let y := yoe + era * 400
  let doy := doe - (365 * yoe + yoe / 4 - yoe / 100)
  let mp := (5 * doy + 2) / 153
  let d := doy - (153 * mp + 2) / 5 + 1
  let m := mp + (if mp < 10 then 3 else -9)
  (if m ≤ 2 then y + 1 else y, m, d)

/-- Adds n calendar months to a day count, landing on the same day of month
in the target month, clamped for short months. -/
def addMonthsToDays (z n : Int) : Int :=
  let c := civilFromDays z
  let y := c.1
  let m := c.2.1
  let d := c.2.2
  let total := y * 12 + (m - 1) + n
  let y2 := total / 12
  let m2 := total % 12 + 1
  let d2 := min d (daysInMonth y2 m2)
  daysFromCivil y2 m2 d2

/- ---------------------------------------------------------------------
Duration.  The struct fields follow section 3 of the specification; the
parser, unit conversions and calendar-aware addition are repository code
outside the excerpt, modelled from sections 3 and 4.1 of the spec.
--------------------------------------------------------------------- -/

/-- Modelled from the spec: the structured duration value, with magnitudes
per component and a sign flag (section 3 of the specification). -/
structure Duration where
  months : Int
  weeks : Int
  days : Int
  nanoseconds : Int
  negative : Bool
  parsed_int : Bool
deriving DecidableEq, Repr

/-- Modelled from the spec: a duration of a fixed number of nanoseconds
(Duration::new); a zero argument is the zero-duration sentinel default. -/
def Duration.new (ns : Int) : Duration :=
  if ns < 0 then ⟨0, 0, 0, -ns, true, false⟩ else ⟨0, 0, 0, ns, false, false⟩

def Duration.is_zero (d : Duration) : Bool :=
  d.months == 0 && d.weeks == 0 && d.days == 0 && d.nanoseconds == 0

/-- Modelled from the spec: the fixed-length components as a flat count of
nanoseconds (section 4.1: months/weeks/days-as-calendar are excluded). -/
def Duration.duration_ns (d : Duration) : Int :=
  if d.negative then -d.nanoseconds else d.nanoseconds

/-- Modelled from the spec: the fixed-length components in microseconds. -/
def Duration.duration_us (d : Duration) : Int :=
  if d.negative then -(d.nanoseconds / 1000) else d.nanoseconds / 1000

/-- Modelled from the spec: the fixed-length components in milliseconds. -/
def Duration.duration_ms (d : Duration) : Int :=
  if d.negative then -(d.nanoseconds / 1000000) else d.nanoseconds / 1000000

/-- Modelled from the spec: is_constant_duration(tz) holds iff
months, weeks and days are all zero and either no timezone is associated or
the associated zone has no DST transitions (UTC); section 3. -/
def Duration.is_constant_duration (d : Duration) (tz : Option String) : Bool :=
  d.months == 0 && d.weeks == 0 && d.days == 0 && (tz == Option.none || tz == some "UTC")

/-- Modelled from the spec: the zero-argument variant used by date_offset,
constant iff no calendar component is present. -/
def Duration.is_constant_duration0 (d : Duration) : Bool :=
  d.months == 0 && d.weeks == 0 && d.days == 0

/-- Modelled from the spec: scalar multiplication of a duration (the
interval * i expression of the range generator); a negative factor flips
the sign flag. -/
def Duration.mulInt (d : Duration) (k : Int) : Duration :=
  if k < 0 then
    ⟨d.months * (-k), d.weeks * (-k), d.days * (-k), d.nanoseconds * (-k), !d.negative, d.parsed_int⟩
  else
    ⟨d.months * k, d.weeks * k, d.days * k, d.nanoseconds * k, d.negative, d.parsed_int⟩

/-- Modelled from the spec: timezone-free duration addition at a given unit
scale (dayLen is the length of one civil day in the unit, nsDiv converts the
nanosecond component to the unit).  Months are added in civil time landing
on the same day of month (clamped); weeks and days are whole civil days,
which without a timezone are of fixed length (section 4.1). -/
def Duration.addPure (dayLen nsDiv : Int) (d : Duration) (t : Int) : Int :=
  let sign : Int := if d.negative then -1 else 1
  let t1 :=
    if d.months = 0 then t
    else
      let dayz := t / dayLen
      let tod := t - dayz * dayLen
      addMonthsToDays dayz (sign * d.months) * dayLen + tod
  t1 + sign * ((d.weeks * 7 + d.days) * dayLen) + sign * (d.nanoseconds / nsDiv)

/-- External collaborator: timezone-aware calendar arithmetic, injected as a
capability (section 6 of the specification). -/
structure TzAuthority where
  addInZone : Tz → Int → Int → Duration → Int → PolarsRes Int

/-- Modelled from the spec: Duration::add_ns; without a timezone the
addition is pure civil arithmetic and cannot fail. -/
def Duration.add_ns (auth : TzAuthority) (d : Duration) (t : Int) (tz : Option Tz) : PolarsRes Int :=
  match tz with
  | .none => .ok (d.addPure NANOSECONDS_IN_DAY 1 t)
  | some z => auth.addInZone z NANOSECONDS_IN_DAY 1 d t

/-- Modelled from the spec: Duration::add_us. -/
def Duration.add_us (auth : TzAuthority) (d : Duration) (t : Int) (tz : Option Tz) : PolarsRes Int :=
  match tz with
  | .none => .ok (d.addPure MICROSECONDS_IN_DAY 1000 t)
  | some z => auth.addInZone z MICROSECONDS_IN_DAY 1000 d t

/-- Modelled from the spec: Duration::add_ms. -/
def Duration.add_ms (auth : TzAuthority) (d : Duration) (t : Int) (tz : Option Tz) : PolarsRes Int :=
  match tz with
  | .none => .ok (d.addPure MILLISECONDS_IN_DAY 1000000 t)
  | some z => auth.addInZone z MILLISECONDS_IN_DAY 1000000 d t

/-- Selects the unit conversion used by Duration-typed round/truncate. -/
def Duration.to_i64 (tu : TimeUnit) (d : Duration) : Int :=
  match tu with
  | .nanoseconds => d.duration_ns
  | .microseconds => d.duration_us
  | .milliseconds => d.duration_ms

/-- Numeric value of a decimal digit character. -/
def digitsToInt (digits : List Char) : Int :=
  digits.foldl (fun a c => a * 10 + ((c.toNat : Int) - 48)) 0

/-- Modelled from the spec: one step of the duration-string parser; consumes
one integer-unit token per call (section 4.1: units y, mo, w, d, h, m, s,
ms, us, ns and i; ParseError on malformed input).  The fuel argument bounds
the recursion and always suffices since each token is nonempty. -/
def parseTokens : Nat → List Char → Duration → PolarsRes Duration
  | 0, _, _ => .err (.parseError "duration string too long")
  | _ + 1, [], acc => .ok acc
  | fuel + 1, cs, acc =>
    let digits := cs.takeWhile Char.isDigit
    let rest := cs.dropWhile Char.isDigit
    if digits.isEmpty then .err (.parseError "expected leading integer in duration string")
    else
      let n := digitsToInt digits
      match rest with
      | 'm' :: 'o' :: rs => parseTokens fuel rs { acc with months := acc.months + n }
      | 'm' :: 's' :: rs => parseTokens fuel rs { acc with nanoseconds := acc.nanoseconds + n * 1000000 }
      | 'u' :: 's' :: rs => parseTokens fuel rs { acc with nanoseconds := acc.nanoseconds + n * 1000 }
      | 'n' :: 's' :: rs => parseTokens fuel rs { acc with nanoseconds := acc.nanoseconds + n }
      | 'y' :: rs => parseTokens fuel rs { acc with months := acc.months + n * 12 }
      | 'w' :: rs => parseTokens fuel rs { acc with weeks := acc.weeks + n }
      | 'd' :: rs => parseTokens fuel rs { acc with days := acc.days + n }
      | 'h' :: rs => parseTokens fuel rs { acc with nanoseconds := acc.nanoseconds + n * 3600000000000 }
      | 'm' :: rs => parseTokens fuel rs { acc with nanoseconds := acc.nanoseconds + n * 60000000000 }
      | 's' :: rs => parseTokens fuel rs { acc with nanoseconds := acc.nanoseconds + n * 1000000000 }
      | 'i' :: rs => parseTokens fuel rs { acc with nanoseconds := acc.nanoseconds + n, parsed_int := true }
      | _ => .err (.parseError "unrecognized unit in duration string")

/-- Modelled from the spec: Duration::parse accepts a sequence of
integer-unit tokens with an optional leading minus sign and fails with a
ParseError on malformed input (section 4.1). -/
def Duration.parse (s : String) : PolarsRes Duration :=
  let cs := s.data
  let neg := match cs with | '-' :: _ => true | _ => false
  let cs := match cs with | '-' :: rs => rs | other => other
  if cs.isEmpty then .err (.parseError "empty duration string")
  else
    (parseTokens (cs.length + 1) cs ⟨0, 0, 0, 0, false, false⟩).map
      (fun d => { d with negative := neg })

/- ---------------------------------------------------------------------
Element-wise combinators of the columnar container (external collaborator,
section 6 of the specification).  A column is a list of optional values:
null rows are Option.none.
--------------------------------------------------------------------- -/

/-- try_apply_nonnull_values_generic: applies a fallible closure to the
non-null values only, preserving null rows. -/
def tryMapOpt (f : Int → PolarsRes Int) : List (Option Int) → PolarsRes (List (Option Int))
  | [] => .ok []
  | .none :: xs => (tryMapOpt f xs).map (fun r => .none :: r)
  | some x :: xs => (f x).bind (fun y => (tryMapOpt f xs).map (fun r => some y :: r))

/-- Traversal of a whole list with a fallible row closure. -/
def tryTraverse {α : Type} (f : α → PolarsRes (Option Int)) : List α → PolarsRes (List (Option Int))
  | [] => .ok []
  | x :: xs => (f x).bind (fun y => (tryTraverse f xs).map (fun r => y :: r))

/-- try_binary_elementwise: zips two equal-length columns with a fallible
row closure that receives the optional values. -/
def try_binary_elementwise {α β : Type}
    (f : Option α → Option β → PolarsRes (Option Int)) :
    List (Option α) → List (Option β) → PolarsRes (List (Option Int))
  | [], _ => .ok []
  | _, [] => .ok []
  | x :: xs, y :: ys =>
    (f x y).bind (fun v => (try_binary_elementwise f xs ys).map (fun r => v :: r))

/-- broadcast_try_binary_elementwise: like try_binary_elementwise but a
length-one operand is broadcast across the other. -/
def broadcast_try_binary_elementwise {α β : Type}
    (f : Option α → Option β → PolarsRes (Option Int))
    (xs : List (Option α)) (ys : List (Option β)) : PolarsRes (List (Option Int)) :=
  match xs, ys with
  | [x], ys => tryTraverse (fun y => f x y) ys
  | xs, [y] => tryTraverse (fun x => f x y) xs
  | xs, ys => try_binary_elementwise f xs ys

/-- try_binary_elementwise_values: combines the validities and applies the
fallible closure to rows where both operands are valid; any null operand
makes the row null without evaluating the closure. -/
def try_binary_elementwise_values {α : Type}
    (f : Int → α → PolarsRes Int) :
    List (Option Int) → List (Option α) → PolarsRes (List (Option Int))
  | [], _ => .ok []
  | _, [] => .ok []
  | some x :: xs, some y :: ys =>
    (f x y).bind (fun v => (try_binary_elementwise_values f xs ys).map (fun r => some v :: r))
  | _ :: xs, _ :: ys =>
    (try_binary_elementwise_values f xs ys).map (fun r => .none :: r)

/-- full_null: an all-null column of the given length. -/
def full_null (n : Nat) : List (Option Int) := List.replicate n .none

/- ---------------------------------------------------------------------
Range generator: crates/polars-time/src/date_range.rs.
--------------------------------------------------------------------- -/

/-- The stopping predicate used when periods is supplied; the periods
argument is always Some on this path (the source unwraps it). -/
def period_stopping_condition (_t i : Int) (_endv periods : Option Int) : Bool :=
  i ≤ periods.getD 0

/-- The stopping predicate for Both/Right without periods. -/
def end_inclusive_stopping_condition (t _i : Int) (endv _periods : Option Int) : Bool :=
  t ≤ endv.getD 0

/-- The stopping predicate for Left/None without periods. -/
def end_exclusive_stopping_condition (t _i : Int) (endv _periods : Option Int) : Bool :=
  t < endv.getD 0

/-- The while loop of datetime_range_i64: pushes t, recomputes
t = start + interval * i through the unit add function and increments i.
The Rust loop is unbounded; the fuel argument models its iteration count
and running out of fuel stands for nontermination. -/
def datetime_range_loop (addFn : Duration → Int → PolarsRes Int) (interval : Duration)
    (start : Int) (stop : Int → Int → Option Int → Option Int → Bool)
    (endv periods : Option Int) :
    Nat → Int → Int → List Int → PolarsRes (List Int)
  | 0, _, _, _ => .err (.panicError "loop fuel exhausted")
  | fuel + 1, t, i, ts =>
    if stop t i endv periods then
      (addFn (interval.mulInt i) start).bind (fun t2 =>
        datetime_range_loop addFn interval start stop endv periods fuel t2 (i + 1) (ts ++ [t]))
    else .ok ts

/-- datetime_range_i64 from crates/polars-time/src/date_range.rs: returns
the vector of emitted instants.  The start > end early return precedes the
interval positivity check, exactly as in the source; the capacity estimate
divides by the flat interval length when periods is absent (a Rust division,
which aborts on a zero divisor). -/
def datetime_range_i64 (auth : TzAuthority) (fuel : Nat) (start : Int)
    (endv periods : Option Int) (interval : Duration) (closed : ClosedWindow)
    (tu : TimeUnit) (tz : Option Tz) : PolarsRes (List Int) :=
  if (match endv with | some e => decide (start > e) | .none => false) then .ok []
  else if interval.negative || interval.is_zero then
    .err (.computeError "interval must be positive")
  else
    let durUnits : Int :=
      match tu with
      | .nanoseconds => interval.duration_ns
      | .microseconds => interval.duration_us
      | .milliseconds => interval.duration_ms
    let addFn : Duration → Int → PolarsRes Int :=
      match tu with
      | .nanoseconds => fun d t => Duration.add_ns auth d t tz
      | .microseconds => fun d t => Duration.add_us auth d t tz
      | .milliseconds => fun d t => Duration.add_ms auth d t tz
    if periods.isNone && (durUnits == 0) then
      .err (.panicError "attempt to divide by zero")
    else
      let i0 : Int :=
        match closed with
        | .both | .left => 0
        | .right | .none => 1
      let stop : Int → Int → Option Int → Option Int → Bool :=
        if periods.isSome then period_stopping_condition
        else
          match closed with
          | .both | .right => end_inclusive_stopping_condition
          | .left | .none => end_exclusive_stopping_condition
      (addFn (interval.mulInt i0) start).bind (fun t0 =>
        datetime_range_loop addFn interval start stop endv periods fuel t0 (i0 + 1) [])

/- ---------------------------------------------------------------------
Window: repository code outside the excerpt, modelled from section 4.2 of
the specification.
--------------------------------------------------------------------- -/

/-- Modelled from the spec: the Window of an every/period/offset triple. -/
structure Window where
  every : Duration
  period : Duration
  offset : Duration

def Window.new (every period offset : Duration) : Window := ⟨every, period, offset⟩

/-- External collaborator: timezone-aware bucket computation for zones with
DST, injected as a capability. -/
structure WindowAuthority where
  truncInZone : Tz → Int → Int → Duration → Duration → Int → PolarsRes Int
  roundInZone : Tz → Int → Int → Duration → Duration → Int → PolarsRes Int

/-- Flat count of the non-month components of a duration at a unit scale. -/
def fixedUnits (dayLen nsDiv : Int) (d : Duration) : Int :=
  (if d.negative then -1 else 1) * ((d.weeks * 7 + d.days) * dayLen + d.nanoseconds / nsDiv)

/-- Modelled from the spec: the bucket start of an instant for a month-based
every, computed on the civil calendar (months since the epoch floored to a
multiple of every.months). -/
def monthBucketStart (dayLen months offU t : Int) : Int :=
  let dayz := t / dayLen
  let c := civilFromDays dayz
  let mIdx := (c.1 - 1970) * 12 + (c.2.1 - 1)
  let b := mIdx - mIdx % months
  daysFromCivil (1970 + b / 12) (b % 12 + 1) 1 * dayLen + offU

/-- Modelled from the spec: Window truncation (section 4.2): a negative
every is a ComputeError, a zero every is an InvalidOperation, the bucket
start is offset + floor((t - offset) / every) * every in raw integer
arithmetic for constant durations and on the civil calendar for month
components; timezone-aware buckets are delegated to the authority. -/
def Window.truncate (wa : WindowAuthority) (dayLen nsDiv : Int) (w : Window)
    (t : Int) (tz : Option Tz) : PolarsRes Int :=
  if w.every.negative then .err (.computeError "every cannot be negative")
  else if w.every.is_zero then .err (.invalidOperation "duration cannot be zero")
  else
    match tz with
    | some z => wa.truncInZone z dayLen nsDiv w.every w.offset t
    | .none =>
      let offU := fixedUnits dayLen nsDiv w.offset
      if w.every.months = 0 then
        let everyU := fixedUnits dayLen nsDiv w.every
        if everyU = 0 then .err (.invalidOperation "duration cannot be zero")
        else .ok (offU + ((t - offU) / everyU) * everyU)
      else .ok (monthBucketStart dayLen w.every.months offU t)

/-- Modelled from the spec: Window rounding (section 4.2): maps an instant
to the nearer of its bucket start and the next boundary, an exact tie going
to the boundary farther from zero (chosen by the sign of the value). -/
def Window.round (wa : WindowAuthority) (dayLen nsDiv : Int) (w : Window)
    (t : Int) (tz : Option Tz) : PolarsRes Int :=
  if w.every.negative then .err (.computeError "every cannot be negative")
  else if w.every.is_zero then .err (.invalidOperation "duration cannot be zero")
  else
    match tz with
    | some z => wa.roundInZone z dayLen nsDiv w.every w.offset t
    | .none =>
      let offU := fixedUnits dayLen nsDiv w.offset
      if w.every.months = 0 then
        let everyU := fixedUnits dayLen nsDiv w.every
        if everyU = 0 then .err (.invalidOperation "duration cannot be zero")
        else
          let bs := offU + ((t - offU) / everyU) * everyU
          let next := bs + everyU
          if t - bs < next - t then .ok bs
          else if next - t < t - bs then .ok next
          else if 0 ≤ t then .ok next else .ok bs
      else
        let bs := monthBucketStart dayLen w.every.months offU t
        let next := monthBucketStart dayLen w.every.months offU (bs + w.every.months * 32 * dayLen)
        if t - bs < next - t then .ok bs
        else if next - t < t - bs then .ok next
        else if 0 ≤ t then .ok next else .ok bs

/- ---------------------------------------------------------------------
Round engine: crates/polars-time/src/round.rs.
--------------------------------------------------------------------- -/

/-- A Datetime column: optional int64 instants plus column-level unit,
timezone and sortedness metadata. -/
structure DatetimeChunked where
  values : List (Option Int)
  time_unit : TimeUnit
  time_zone : Option String
  sorted : IsSorted
deriving DecidableEq, Repr

def dayLenOf : TimeUnit → Int
  | .nanoseconds => NANOSECONDS_IN_DAY
  | .microseconds => MICROSECONDS_IN_DAY
  | .milliseconds => MILLISECONDS_IN_DAY

def nsDivOf : TimeUnit → Int
  | .nanoseconds => 1
  | .microseconds => 1000
  | .milliseconds => 1000000

/-- The integer fast-path closure of DatetimeChunked::round: rounds
half-way values away from zero.  The Rust remainder operator aborts on a
zero divisor, modelled by the panic-shaped error. -/
def round_half_away_closure (every t : Int) : PolarsRes Int :=
  let half_away := rustDiv (Int.sign t * every) 2
  if every = 0 then .err (.panicError "attempt to calculate the remainder with a divisor of zero")
  else .ok (t + half_away - rustRem (t + half_away) every)

/-- The per-row closure of the general path of DatetimeChunked::round. -/
def datetimeRoundRow (wa : WindowAuthority) (tu : TimeUnit) (tz : Option Tz) :
    Option Int → Option String → PolarsRes (Option Int)
  | some timestamp, some es =>
    (Duration.parse es).bind fun every =>
      if every.negative then .err (.computeError "cannot round a Datetime to a negative duration")
      else
        ((Window.new every every (Duration.new 0)).round wa (dayLenOf tu) (nsDivOf tu) timestamp tz).map some
  | _, _ => .ok .none

/-- PolarsRound for DatetimeChunked (round.rs lines 15-93): a length-one
every column takes the fast path (integer arithmetic when the zone is
naive/UTC and the duration has no week/month component, Window otherwise,
full-null output when the lone every value is null); otherwise the
broadcast per-row path parses each row and applies Window. -/
def datetime_round (wa : WindowAuthority) (ca : DatetimeChunked)
    (every : List (Option String)) (tz : Option Tz) : PolarsRes DatetimeChunked :=
  let time_zone := ca.time_zone
  let offset := Duration.new 0
  match every with
  | [some everyStr] =>
    (Duration.parse everyStr).bind fun every_parsed =>
      if every_parsed.negative then
        .err (.computeError "cannot round a Datetime to a negative duration")
      else if (time_zone == Option.none || time_zone == some "UTC")
          && every_parsed.months == 0 && every_parsed.weeks == 0 then
        let everyU := every_parsed.to_i64 ca.time_unit
        (tryMapOpt (round_half_away_closure everyU) ca.values).map
          (fun vs => ⟨vs, ca.time_unit, time_zone, .not⟩)
      else
        let w := Window.new every_parsed every_parsed offset
        (tryMapOpt (fun t => w.round wa (dayLenOf ca.time_unit) (nsDivOf ca.time_unit) t tz) ca.values).map
          (fun vs => ⟨vs, ca.time_unit, ca.time_zone, .not⟩)
  | [.none] =>
    .ok ⟨full_null ca.values.length, ca.time_unit, ca.time_zone, .not⟩
  | evs =>
    (broadcast_try_binary_elementwise (datetimeRoundRow wa ca.time_unit tz) ca.values evs).map
      (fun vs => ⟨vs, ca.time_unit, ca.time_zone, .not⟩)

/-- PolarsRound for DurationChunked (round.rs lines 143-165): validates the
sign, constancy and nonzero unit count of every, then rounds each value
half-way away from zero with pure integer arithmetic.  The source body
reads every as an already parsed Duration value. -/
def duration_round (values : List (Option Int)) (tu : TimeUnit) (every : Duration) :
    PolarsRes (List (Option Int)) :=
  if every.negative then .err (.computeError "cannot round a Duration to a negative duration")
  else if !(every.is_constant_duration .none) then
    .err (.invalidOperation "expected every to be a constant duration")
  else
    let everyU := every.to_i64 tu
    if everyU = 0 then .err (.invalidOperation "every duration cannot be zero")
    else
      .ok (values.map (Option.map (fun duration =>
        let half_away := rustDiv (Int.sign duration * everyU) 2
        duration + half_away - rustRem (duration + half_away) everyU)))

/- ---------------------------------------------------------------------
Truncate engine: crates/polars-time/src/truncate.rs.
--------------------------------------------------------------------- -/

/-- The per-row closure of the general path of DatetimeChunked::truncate. -/
def datetimeTruncRow (wa : WindowAuthority) (tu : TimeUnit) (tz : Option Tz)
    (offset : Duration) : Option Int → Option String → PolarsRes (Option Int)
  | some timestamp, some es =>
    (Duration.parse es).bind fun every =>
      if every.negative then .err (.computeError "cannot truncate a Datetime to a negative duration")
      else
        ((Window.new every every offset).truncate wa (dayLenOf tu) (nsDivOf tu) timestamp tz).map some
  | _, _ => .ok .none

/-- PolarsTruncate for DatetimeChunked (truncate.rs lines 14-56): parses the
offset, then dispatches on the length of the every column; every row goes
through Window truncation. -/
def datetime_truncate (wa : WindowAuthority) (ca : DatetimeChunked) (tz : Option Tz)
    (every : List (Option String)) (offsetStr : String) : PolarsRes DatetimeChunked :=
  (Duration.parse offsetStr).bind fun offset =>
    match every with
    | [some es] =>
      (Duration.parse es).bind fun ev =>
        if ev.negative then .err (.computeError "cannot truncate a Datetime to a negative duration")
        else
          let w := Window.new ev ev offset
          (tryMapOpt (fun t => w.truncate wa (dayLenOf ca.time_unit) (nsDivOf ca.time_unit) t tz) ca.values).map
            (fun vs => ⟨vs, ca.time_unit, ca.time_zone, .not⟩)
    | [.none] =>
      .ok ⟨full_null ca.values.length, ca.time_unit, ca.time_zone, .not⟩
    | evs =>
      (try_binary_elementwise (datetimeTruncRow wa ca.time_unit tz offset) ca.values evs).map
        (fun vs => ⟨vs, ca.time_unit, ca.time_zone, .not⟩)

/-- The per-row closure of the general path of DurationChunked::truncate. -/
def durationTruncRow (tu : TimeUnit) (time_zone : Option String) :
    Option Int → Option String → PolarsRes (Option Int)
  | some duration, some es =>
    (Duration.parse es).bind fun every_duration =>
      if every_duration.negative then
        .err (.computeError "cannot truncate a Duration to a negative duration")
      else if !(every_duration.is_constant_duration time_zone) then
        .err (.invalidOperation "expected every to be a constant duration")
      else
        let every_units := every_duration.to_i64 tu
        if every_units = 0 then .err (.invalidOperation "duration cannot be zero")
        else .ok (some (duration - rustRem duration every_units))
  | _, _ => .ok .none

/-- PolarsTruncate for DurationChunked (truncate.rs lines 106-168): rejects
any nonzero offset, validates sign, constancy and nonzero unit count of
every, then truncates each value with the Rust remainder (which truncates
toward zero). -/
def duration_truncate (values : List (Option Int)) (tu : TimeUnit)
    (tz : Option String) (every : List (Option String)) (offsetStr : String) :
    PolarsRes (List (Option Int)) :=
  let time_zone := tz
  (Duration.parse offsetStr).bind fun offD =>
    if !offD.is_zero then
      .err (.invalidOperation "offset is not supported for truncating Durations")
    else
      match every with
      | [some es] =>
        (Duration.parse es).bind fun every_duration =>
          if every_duration.negative then
            .err (.computeError "cannot truncate a Duration to a negative duration")
          else if !(every_duration.is_constant_duration time_zone) then
            .err (.invalidOperation "expected every to be a constant duration")
          else
            let every_units := every_duration.to_i64 tu
            if every_units = 0 then .err (.invalidOperation "duration cannot be zero")
            else .ok (values.map (Option.map (fun duration => duration - rustRem duration every_units)))
      | [.none] => .ok (full_null values.length)
      | evs => try_binary_elementwise (durationTruncRow tu time_zone) values evs

/- ---------------------------------------------------------------------
replace_time_zone:
crates/polars-ops/src/chunked_array/datetime/replace_time_zone.rs.
--------------------------------------------------------------------- -/

/-- parse_time_zone: looks the name up in the injected zone database and
fails with a ComputeError naming the offending string otherwise. -/
def parse_time_zone (db : String → Option Tz) (s : String) : PolarsRes Tz :=
  match db s with
  | some tz => .ok tz
  | .none => .err (.computeError ("unable to parse time zone: " ++ s))

/-- replace_time_zone (lines 15-54): parses source and target zones, then
converts each instant through convert_to_naive_local (injected: repository
code outside the excerpt) with either the lone scalar policy or the per-row
policy column; the output carries the target zone and the flag assignment
copies the sortedness flag of the input unconditionally. -/
def replace_time_zone (db : String → Option Tz)
    (conv : Tz → Tz → Int → String → PolarsRes Int)
    (datetime : DatetimeChunked) (time_zone : Option String)
    (ambiguous : List (Option String)) : PolarsRes DatetimeChunked :=
  (parse_time_zone db (datetime.time_zone.getD "UTC")).bind fun from_tz =>
    (parse_time_zone db (time_zone.getD "UTC")).bind fun to_tz =>
      let out : PolarsRes (List (Option Int)) :=
        match ambiguous with
        | [some amb] => tryMapOpt (fun timestamp => conv from_tz to_tz timestamp amb) datetime.values
        | [.none] => .ok (datetime.values.map (fun _ => .none))
        | ambs => try_binary_elementwise_values (fun timestamp amb => conv from_tz to_tz timestamp amb) datetime.values ambs
      out.map (fun vs => ⟨vs, datetime.time_unit, time_zone, datetime.sorted⟩)

/- ---------------------------------------------------------------------
cast_timezone: polars/polars-arrow/src/kernels/time.rs.
--------------------------------------------------------------------- -/

/-- External collaborator: the chrono zone/offset parsers and the composed
local-to-local conversion functions for the four parse-outcome shapes. -/
structure ChronoOps where
  parseNamed : String → Option Tz
  parseOffset : String → Option Int
  convNN : Tz → Tz → Int → Int
  convNO : Tz → Int → Int → Int
  convON : Int → Tz → Int → Int
  convOO : Int → Int → Int → Int

/-- Collects a fallible closure over a list of physical values. -/
def tryCollect {α : Type} (f : α → PolarsRes Int) : List α → PolarsRes (List Int)
  | [] => .ok []
  | x :: xs => (f x).bind (fun y => (tryCollect f xs).map (fun r => y :: r))

/-- The per-value closure of cast_timezone: tries the from zone as a named
zone then as a fixed offset, likewise the to zone, and aborts with a panic
whose message names the unparseable zone otherwise (the source uses the
panic macro, not an error return). -/
def cast_timezone_value (P : ChronoOps) (fromz toz : String) (value : Int) : PolarsRes Int :=
  match P.parseNamed fromz with
  | some from_tz =>
    match P.parseNamed toz with
    | some to_tz => .ok (P.convNN from_tz to_tz value)
    | .none =>
      match P.parseOffset toz with
      | some to_off => .ok (P.convNO from_tz to_off value)
      | .none => .err (.panicError ("Could not parse timezone " ++ toz))
  | .none =>
    match P.parseOffset fromz with
    | some from_off =>
      match P.parseNamed toz with
      | some to_tz => .ok (P.convON from_off to_tz value)
      | .none =>
        match P.parseOffset toz with
        | some to_off => .ok (P.convOO from_off to_off value)
        | .none => .err (.panicError ("Could not parse timezone " ++ toz))
    | .none => .err (.panicError ("Could not parse timezone " ++ fromz))

/-- cast_timezone (time.rs): applies the conversion closure to every
physical value of the array; the three unit arms share this shape with
unit-specific conversions supplied through the ChronoOps capability. -/
def cast_timezone (P : ChronoOps) (fromz toz : String) (arr : List Int) : PolarsRes (List Int) :=
  tryCollect (cast_timezone_value P fromz toz) arr

/- ---------------------------------------------------------------------
date_offset: crates/polars-plan/src/dsl/function_expr/temporal.rs.
Arrays at the arrow level: physical values plus a validity mask.
--------------------------------------------------------------------- -/

structure ArrI64 where
  phys : List Int
  validity : List Bool
deriving DecidableEq, Repr

structure ArrUtf8 where
  phys : List String
  validity : List Bool
deriving DecidableEq, Repr

def combine_validities_and (a b : List Bool) : List Bool := List.zipWith and a b

/-- compute_kernel2 (temporal.rs lines 120-136): combines the validities and
maps every pair of physical values through Duration::parse and
Duration::add_us with no timezone, regardless of the time unit of the
array. -/
def compute_kernel2 (auth : TzAuthority) (arr_1 : ArrI64) (arr_2 : ArrUtf8) : PolarsRes ArrI64 :=
  let validity := combine_validities_and arr_1.validity arr_2.validity
  (tryCollect (fun lr => (Duration.parse lr.2).bind (fun offset => Duration.add_us auth offset lr.1 .none))
      (List.zip arr_1.phys arr_2.phys)).map
    (fun values => ⟨values, validity⟩)

/-- get(0) of a string array: the first element as an optional value. -/
def arrGet0 (a : ArrUtf8) : Option String :=
  match a.phys, a.validity with
  | s :: _, v :: _ => if v then some s else .none
  | _, _ => .none

/-- try_apply at the arrow level: maps the fallible closure over every
physical value, keeping the validity mask. -/
def try_apply_arr (f : Int → PolarsRes Int) (a : ArrI64) : PolarsRes ArrI64 :=
  (tryCollect f a.phys).map (fun vs => ⟨vs, a.validity⟩)

/-- The Datetime arm of date_offset (temporal.rs lines 139-246): a length
one offsets column parses once and broadcasts the unit-matched add function
with the parsed column timezone; any other length goes through
compute_kernel2.  Sortedness is preserved only on the scalar path and only
for naive/UTC zones or constant offsets. -/
def date_offset_datetime (auth : TzAuthority) (dbTz : String → Option Tz)
    (sa : ArrI64) (sorted : IsSorted) (tu : TimeUnit) (tz : Option String)
    (offsets : ArrUtf8) : PolarsRes (ArrI64 × IsSorted) :=
  let offset_fn : Duration → Int → Option Tz → PolarsRes Int :=
    match tu with
    | .nanoseconds => fun d t z => Duration.add_ns auth d t z
    | .microseconds => fun d t z => Duration.add_us auth d t z
    | .milliseconds => fun d t z => Duration.add_ms auth d t z
  let tz_args : Option Tz :=
    match tz with
    | some s => dbTz s
    | .none => .none
  let outR : PolarsRes ArrI64 :=
    if offsets.phys.length = 1 then
      ((match arrGet0 offsets with
        | some o => Duration.parse o
        | .none => .ok (Duration.new 0)) : PolarsRes Duration).bind fun offD =>
        try_apply_arr (fun v => offset_fn offD v tz_args) sa
    else
      compute_kernel2 auth sa offsets
  outR.bind fun out =>
    let preserveR : PolarsRes Bool :=
      if offsets.phys.length = 1 then
        ((match arrGet0 offsets with
          | some o => Duration.parse o
          | .none => .ok (Duration.new 0)) : PolarsRes Duration).map fun offD =>
          (tz == Option.none) || (tz == some "UTC") || offD.is_constant_duration0
      else .ok false
    preserveR.map fun preserve =>
      (out, if preserve then sorted else .not)

/- ---------------------------------------------------------------------
business_day_count: crates/polars-time/src/business_day_count.rs.
--------------------------------------------------------------------- -/

/-- Wraps an integer to the i32 range (release-mode Rust arithmetic). -/
def wrap32 (x : Int) : Int := (x + 2147483648) % 4294967296 - 2147483648

/-- Element-wise subtraction of two Int32 columns with null propagation and
length-one broadcasting, as provided by the columnar container; mismatched
lengths abort. -/
def int32_sub (lhs rhs : List (Option Int)) : PolarsRes (List (Option Int)) :=
  if lhs.length = rhs.length then
    .ok (List.zipWith (fun a b =>
      match a, b with
      | some x, some y => some (wrap32 (x - y))
      | _, _ => .none) lhs rhs)
  else
    match rhs with
    | [ro] => .ok (lhs.map (fun a => a.bind (fun x => ro.map (fun y => wrap32 (x - y)))))
    | _ =>
      match lhs with
      | [lo] => .ok (rhs.map (fun b => lo.bind (fun x => b.map (fun y => wrap32 (x - y)))))
      | _ => .err (.panicError "length mismatch")

/-- business_day_count_impl (business_day_count.rs lines 6-11): returns the
plain element-wise difference of the day-number columns. -/
def business_day_count_impl (start_dates end_dates : List (Option Int)) :
    PolarsRes (List (Option Int)) :=
  int32_sub end_dates start_dates

/- ---------------------------------------------------------------------
Concrete capability instances used by witnesses and counterexamples.
--------------------------------------------------------------------- -/

/-- A timezone authority that refuses every zone; the claims under study
never reach the timezone branch. -/
def trivialTzAuthority : TzAuthority :=
  ⟨fun _ _ _ _ _ => .err (.computeError "timezone database unavailable")⟩

/-- A window authority that refuses every zone. -/
def trivialWindowAuthority : WindowAuthority :=
  ⟨fun _ _ _ _ _ _ => .err (.computeError "timezone database unavailable"),
   fun _ _ _ _ _ _ => .err (.computeError "timezone database unavailable")⟩

/-- A toy zone database accepting two names. -/
def toyTzDb : String → Option Tz :=
  fun s => if s = "UTC" || s = "Europe/London" then some s else .none

/-- A toy local-to-local conversion that keeps the instant. -/
def toyConvert : Tz → Tz → Int → String → PolarsRes Int := fun _ _ t _ => .ok t

/-- A toy chrono capability: only the name UTC parses, no fixed offsets. -/
def toyChronoOps : ChronoOps :=
  ⟨fun s => if s = "UTC" then some s else .none, fun _ => .none,
   fun _ _ v => v, fun _ _ v => v, fun _ _ v => v, fun _ _ v => v⟩

/-- The spec-side first boundary index of the range table (section 4.3). -/
def firstIdx : ClosedWindow → Int
  | .both | .left => 0
  | .right | .none => 1

/-- The spec-side largest emitted boundary index: the last i with
start + i * n ≤ end (non-strict closeds) or < end (strict closeds). -/
def endIdx (closed : ClosedWindow) (start e n : Int) : Int :=
  match closed with
  | .both | .right => (e - start) / n
  | .left | .none => (e - 1 - start) / n

/-- The spec-side number of emitted instants. -/
def rangeCount (closed : ClosedWindow) (start e n : Int) : Nat :=
  (endIdx closed start e n + 1 - firstIdx closed).toNat

/- ---------------------------------------------------------------------
Helper lemmas.
--------------------------------------------------------------------- -/

theorem rustRem_neg_left (a b : Int) : rustRem (-a) b = -(rustRem a b) := by
  have h1 := Int.tdiv_add_tmod a b
  have h2 := Int.tdiv_add_tmod (-a) b
  rw [Int.neg_tdiv, mul_neg] at h2
  unfold rustRem
  omega

theorem rustRem_bounds_nonneg {a b : Int} (ha : 0 ≤ a) (hb : 0 < b) :
    0 ≤ rustRem a b ∧ rustRem a b < b :=
  ⟨Int.tmod_nonneg b ha, Int.tmod_lt_of_pos a hb⟩

theorem rustRem_bounds_nonpos {a b : Int} (ha : a ≤ 0) (hb : 0 < b) :
    -b < rustRem a b ∧ rustRem a b ≤ 0 := by
  have h := rustRem_bounds_nonneg (a := -a) (b := b) (by omega) hb
  have h2 := rustRem_neg_left (-a) b
  simp only [neg_neg] at h2
  omega

theorem dvd_sub_rustRem (a b : Int) : b ∣ (a - rustRem a b) := by
  have h1 := Int.tdiv_add_tmod a b
  exact ⟨a.tdiv b, by unfold rustRem; omega⟩

theorem rustRem_mul_self (q e : Int) : rustRem (q * e) e = 0 := by
  unfold rustRem
  exact Int.tmod_eq_zero_of_dvd ⟨q, mul_comm q e⟩

/-- The nanosecond add of a scaled fixed interval is plain arithmetic. -/
theorem add_ns_fixed (auth : TzAuthority) (n i start : Int) (hi : 0 ≤ i) :
    Duration.add_ns auth (Duration.mulInt ⟨0, 0, 0, n, false, false⟩ i) start .none
      = .ok (start + i * n) := by
  simp only [Duration.add_ns, Duration.mulInt, if_neg (not_lt.mpr hi), Duration.addPure]
  simp only [zero_mul, if_pos rfl]
  norm_num
  ring

/-- With a positive fixed nanosecond interval and an end bound, the range
loop emits exactly the boundaries from its entry index up to the last index
whose instant satisfies the bound. -/
theorem range_loop_fixed (auth : TzAuthority) (n start e E : Int) (hn : 0 < n)
    (sc : Int → Int → Option Int → Option Int → Bool)
    (hsc : ∀ t i, sc t i (some e) .none = decide (t ≤ E)) :
    ∀ (fuel : Nat) (j : Int) (acc : List Int), 0 ≤ j →
      ((E - start) / n + 1 - j).toNat < fuel →
      datetime_range_loop (fun d t => Duration.add_ns auth d t .none)
          ⟨0, 0, 0, n, false, false⟩ start sc (some e) .none fuel (start + j * n) (j + 1) acc
        = .ok (acc ++ (List.range ((E - start) / n + 1 - j).toNat).map
            (fun k : Nat => start + (j + (k : Int)) * n)) := by
  intro fuel
  induction fuel with
  | zero => intro j acc _ hfuel; omega
  | succ f ih =>
    intro j acc hj hfuel
    rw [datetime_range_loop]
    rw [hsc]
    by_cases hcase : start + j * n ≤ E
    · have hjD : j ≤ (E - start) / n := by
        rw [Int.le_ediv_iff_mul_le hn]
        omega
      rw [decide_eq_true hcase, if_pos rfl]
      rw [add_ns_fixed auth n (j + 1) start (by omega)]
      simp only [PolarsRes.bind]
      rw [ih (j + 1) (acc ++ [start + j * n]) (by omega) (by omega)]
      have hcnt : ((E - start) / n + 1 - j).toNat = ((E - start) / n + 1 - (j + 1)).toNat + 1 := by
        omega
      rw [hcnt, List.range_succ_eq_map]
      simp only [List.map_cons, List.map_map, List.append_assoc, List.singleton_append]
      have hfun : ((fun k : Nat => start + (j + (k : Int)) * n) ∘ Nat.succ)
          = (fun k : Nat => start + ((j + 1) + (k : Int)) * n) := by
        funext k
        simp only [Function.comp_apply]
        push_cast
        ring
      rw [hfun]
      norm_num
    · have hjD : (E - start) / n < j := by
        by_contra hcon
        push_neg at hcon
        rw [Int.le_ediv_iff_mul_le hn] at hcon
        omega
      rw [decide_eq_false hcase, if_neg Bool.false_ne_true]
      have hcnt : ((E - start) / n + 1 - j).toNat = 0 := by omega
      rw [hcnt]
      simp

/-- C1.  For the range generator with a positive fixed interval (here in
nanoseconds, with no timezone) and start at most end, the emitted sequence
follows the closed-endpoint table of the specification: the first emitted
boundary index is 0 for Both/Left and 1 for Right/None, and emission stops
once t(i) = start + i * interval passes end, strictly for Left/None and
non-strictly for Both/Right; rangeCount counts exactly those indices.  The
fuel bound only says the modelled while loop is run to completion. -/
theorem claim1_range_closed_semantics (auth : TzAuthority) (fuel : Nat)
    (start e n : Int) (closed : ClosedWindow) (hn : 0 < n) (hse : start ≤ e)
    (hfuel : rangeCount closed start e n < fuel) :
    datetime_range_i64 auth fuel start (some e) .none ⟨0, 0, 0, n, false, false⟩
        closed .nanoseconds .none
      = .ok ((List.range (rangeCount closed start e n)).map
          (fun k : Nat => start + (firstIdx closed + (k : Int)) * n)) := by
  have hgt : decide (start > e) = false := decide_eq_false (by omega)
  have hnz : (⟨0, 0, 0, n, false, false⟩ : Duration).is_zero = false := by
    simp only [Duration.is_zero]
    simp [hn.ne']
  have hdur : (⟨0, 0, 0, n, false, false⟩ : Duration).duration_ns = n := rfl
  cases closed with
  | both =>
    simp only [datetime_range_i64, hgt, hnz, hdur, Bool.false_eq_true, if_false,
      Bool.or_false, Option.isSome_some, Option.isNone_none, Bool.false_and,
      Option.isSome_none, Option.isNone_some, Bool.true_and, Bool.and_self]
    rw [if_neg (by simp [hn.ne'])]
    rw [add_ns_fixed auth n 0 start le_rfl]
    simp only [PolarsRes.bind]
    rw [range_loop_fixed auth n start e e hn end_inclusive_stopping_condition
      (fun t i => rfl) fuel 0 [] le_rfl (by simpa [rangeCount, endIdx, firstIdx] using hfuel)]
    simp [rangeCount, endIdx, firstIdx]
  | left =>
    simp only [datetime_range_i64, hgt, hnz, hdur, Bool.false_eq_true, if_false,
      Bool.or_false, Option.isSome_some, Option.isNone_none, Bool.false_and,
      Option.isSome_none, Option.isNone_some, Bool.true_and, Bool.and_self]
    rw [if_neg (by simp [hn.ne'])]
    rw [add_ns_fixed auth n 0 start le_rfl]
    simp only [PolarsRes.bind]
    rw [range_loop_fixed auth n start e (e - 1) hn end_exclusive_stopping_condition
      (fun t i => by
        unfold end_exclusive_stopping_condition
        simp only [Option.getD_some]
        exact decide_eq_decide.mpr ⟨fun h => by omega, fun h => by omega⟩)
      fuel 0 [] le_rfl (by simpa [rangeCount, endIdx, firstIdx] using hfuel)]
    simp [rangeCount, endIdx, firstIdx]
  | right =>
    simp only [datetime_range_i64, hgt, hnz, hdur, Bool.false_eq_true, if_false,
      Bool.or_false, Option.isSome_some, Option.isNone_none, Bool.false_and,
      Option.isSome_none, Option.isNone_some, Bool.true_and, Bool.and_self]
    rw [if_neg (by simp [hn.ne'])]
    rw [add_ns_fixed auth n 1 start (by omega)]
    simp only [PolarsRes.bind]
    rw [range_loop_fixed auth n start e e hn end_inclusive_stopping_condition
      (fun t i => rfl) fuel 1 [] (by omega) (by simpa [rangeCount, endIdx, firstIdx] using hfuel)]
    simp [rangeCount, endIdx, firstIdx]
  | none =>
    simp only [datetime_range_i64, hgt, hnz, hdur, Bool.false_eq_true, if_false,
      Bool.or_false, Option.isSome_some, Option.isNone_none, Bool.false_and,
      Option.isSome_none, Option.isNone_some, Bool.true_and, Bool.and_self]
    rw [if_neg (by simp [hn.ne'])]
    rw [add_ns_fixed auth n 1 start (by omega)]
    simp only [PolarsRes.bind]
    rw [range_loop_fixed auth n start e (e - 1) hn end_exclusive_stopping_condition
      (fun t i => by
        unfold end_exclusive_stopping_condition
        simp only [Option.getD_some]
        exact decide_eq_decide.mpr ⟨fun h => by omega, fun h => by omega⟩)
      fuel 1 [] (by omega) (by simpa [rangeCount, endIdx, firstIdx] using hfuel)]
    simp [rangeCount, endIdx, firstIdx]

/-- C1 witness: the concrete example of the specification, all four closed
options at start 0, end 10, interval 2 nanoseconds. -/
theorem claim1_range_closed_semantics_witness :
    datetime_range_i64 trivialTzAuthority 20 0 (some 10) .none ⟨0, 0, 0, 2, false, false⟩
        .both .nanoseconds .none = .ok [0, 2, 4, 6, 8, 10]
    ∧ datetime_range_i64 trivialTzAuthority 20 0 (some 10) .none ⟨0, 0, 0, 2, false, false⟩
        .left .nanoseconds .none = .ok [0, 2, 4, 6, 8]
    ∧ datetime_range_i64 trivialTzAuthority 20 0 (some 10) .none ⟨0, 0, 0, 2, false, false⟩
        .right .nanoseconds .none = .ok [2, 4, 6, 8, 10]
    ∧ datetime_range_i64 trivialTzAuthority 20 0 (some 10) .none ⟨0, 0, 0, 2, false, false⟩
        .none .nanoseconds .none = .ok [2, 4, 6, 8] := by
  refine ⟨?_, ?_, ?_, ?_⟩
  · exact (claim1_range_closed_semantics trivialTzAuthority 20 0 10 2 .both
      (by decide) (by decide) (by decide)).trans (by decide)
  · exact (claim1_range_closed_semantics trivialTzAuthority 20 0 10 2 .left
      (by decide) (by decide) (by decide)).trans (by decide)
  · exact (claim1_range_closed_semantics trivialTzAuthority 20 0 10 2 .right
      (by decide) (by decide) (by decide)).trans (by decide)
  · exact (claim1_range_closed_semantics trivialTzAuthority 20 0 10 2 .none
      (by decide) (by decide) (by decide)).trans (by decide)

/-- In periods mode the loop pushes once per index i with i ≤ periods,
starting from its entry index, whenever the add function cannot fail. -/
theorem range_loop_periods (addFn : Duration → Int → PolarsRes Int)
    (hadd : ∀ d t, ∃ v, addFn d t = .ok v)
    (interval : Duration) (start p : Int) (endv : Option Int) :
    ∀ (fuel : Nat) (i t : Int) (acc : List Int),
      (p + 1 - i).toNat < fuel →
      ∃ l, datetime_range_loop addFn interval start period_stopping_condition
            endv (some p) fuel t i acc = .ok l
          ∧ l.length = acc.length + (p + 1 - i).toNat := by
  intro fuel
  induction fuel with
  | zero => intro i t acc h; omega
  | succ f ih =>
    intro i t acc hfuel
    rw [datetime_range_loop]
    unfold period_stopping_condition
    simp only [Option.getD_some]
    by_cases hip : i ≤ p
    · rw [if_pos (decide_eq_true hip)]
      obtain ⟨v, hv⟩ := hadd (interval.mulInt i) start
      rw [hv]
      simp only [PolarsRes.bind]
      obtain ⟨l, hl, hlen⟩ := ih (i + 1) v (acc ++ [t]) (by omega)
      refine ⟨l, hl, ?_⟩
      rw [hlen]
      simp only [List.length_append, List.length_singleton]
      omega
    · rw [if_neg (by simp only [decide_eq_true_eq]; exact hip)]
      exact ⟨acc, rfl, by omega⟩

/-- C9 amended.  With periods supplied, end absent, a positive interval and
no timezone, the generator emits exactly periods instants for Both/Left but
only periods - 1 instants for Right/None (the loop pre-increments the
boundary index before testing it against periods). -/
theorem claim9_periods_length (auth : TzAuthority) (fuel : Nat) (start p : Int)
    (interval : Duration) (closed : ClosedWindow) (tu : TimeUnit)
    (hneg : interval.negative = false) (hnz : interval.is_zero = false)
    (hp : 0 ≤ p) (hfuel : p.toNat < fuel) :
    ∃ l, datetime_range_i64 auth fuel start .none (some p) interval closed tu .none = .ok l
        ∧ l.length = (match closed with
            | .both | .left => p.toNat
            | .right | .none => (p - 1).toNat) := by
  cases closed <;> cases tu <;>
    simp only [datetime_range_i64, hneg, hnz, Bool.or_self, Bool.false_eq_true, if_false,
      Option.isSome_some, Option.isNone_some, Bool.false_and, if_true, Bool.false_or] <;>
    [obtain ⟨l, hl, hlen⟩ := range_loop_periods (fun d t => Duration.add_ns auth d t .none)
        (fun d t => ⟨_, rfl⟩) interval start p .none fuel (0 + 1)
        ((interval.mulInt 0).addPure NANOSECONDS_IN_DAY 1 start) [] (by omega);
     obtain ⟨l, hl, hlen⟩ := range_loop_periods (fun d t => Duration.add_us auth d t .none)
        (fun d t => ⟨_, rfl⟩) interval start p .none fuel (0 + 1)
        ((interval.mulInt 0).addPure MICROSECONDS_IN_DAY 1000 start) [] (by omega);
     obtain ⟨l, hl, hlen⟩ := range_loop_periods (fun d t => Duration.add_ms auth d t .none)
        (fun d t => ⟨_, rfl⟩) interval start p .none fuel (0 + 1)
        ((interval.mulInt 0).addPure MILLISECONDS_IN_DAY 1000000 start) [] (by omega);
     obtain ⟨l, hl, hlen⟩ := range_loop_periods (fun d t => Duration.add_ns auth d t .none)
        (fun d t => ⟨_, rfl⟩) interval start p .none fuel (0 + 1)
        ((interval.mulInt 0).addPure NANOSECONDS_IN_DAY 1 start) [] (by omega);
     obtain ⟨l, hl, hlen⟩ := range_loop_periods (fun d t => Duration.add_us auth d t .none)
        (fun d t => ⟨_, rfl⟩) interval start p .none fuel (0 + 1)
        ((interval.mulInt 0).addPure MICROSECONDS_IN_DAY 1000 start) [] (by omega);
     obtain ⟨l, hl, hlen⟩ := range_loop_periods (fun d t => Duration.add_ms auth d t .none)
        (fun d t => ⟨_, rfl⟩) interval start p .none fuel (0 + 1)
        ((interval.mulInt 0).addPure MILLISECONDS_IN_DAY 1000000 start) [] (by omega);
     obtain ⟨l, hl, hlen⟩ := range_loop_periods (fun d t => Duration.add_ns auth d t .none)
        (fun d t => ⟨_, rfl⟩) interval start p .none fuel (1 + 1)
        ((interval.mulInt 1).addPure NANOSECONDS_IN_DAY 1 start) [] (by omega);
     obtain ⟨l, hl, hlen⟩ := range_loop_periods (fun d t => Duration.add_us auth d t .none)
        (fun d t => ⟨_, rfl⟩) interval start p .none fuel (1 + 1)
        ((interval.mulInt 1).addPure MICROSECONDS_IN_DAY 1000 start) [] (by omega);
     obtain ⟨l, hl, hlen⟩ := range_loop_periods (fun d t => Duration.add_ms auth d t .none)
        (fun d t => ⟨_, rfl⟩) interval start p .none fuel (1 + 1)
        ((interval.mulInt 1).addPure MILLISECONDS_IN_DAY 1000000 start) [] (by omega);
     obtain ⟨l, hl, hlen⟩ := range_loop_periods (fun d t => Duration.add_ns auth d t .none)
        (fun d t => ⟨_, rfl⟩) interval start p .none fuel (1 + 1)
        ((interval.mulInt 1).addPure NANOSECONDS_IN_DAY 1 start) [] (by omega);
     obtain ⟨l, hl, hlen⟩ := range_loop_periods (fun d t => Duration.add_us auth d t .none)
        (fun d t => ⟨_, rfl⟩) interval start p .none fuel (1 + 1)
        ((interval.mulInt 1).addPure MICROSECONDS_IN_DAY 1000 start) [] (by omega);
     obtain ⟨l, hl, hlen⟩ := range_loop_periods (fun d t => Duration.add_ms auth d t .none)
        (fun d t => ⟨_, rfl⟩) interval start p .none fuel (1 + 1)
        ((interval.mulInt 1).addPure MILLISECONDS_IN_DAY 1000000 start) [] (by omega)] <;>
    exact ⟨l, hl, by rw [hlen]; simp only [List.length_nil, Nat.zero_add]; omega⟩

/-- C9 counterexample: with periods = 3, closed = Right and interval one
nanosecond the generator emits only two instants, not three as claimed. -/
theorem claim9_counterexample :
    datetime_range_i64 trivialTzAuthority 10 0 .none (some 3) ⟨0, 0, 0, 1, false, false⟩
        .right .nanoseconds .none = .ok [1, 2]
    ∧ ([1, 2] : List Int).length ≠ 3 := by
  exact ⟨by decide, by decide⟩

/-- C9 witness: periods = 3 with closed = Both yields three instants and
with closed = Right two instants. -/
theorem claim9_periods_length_witness :
    (∃ l, datetime_range_i64 trivialTzAuthority 10 0 .none (some 3) ⟨0, 0, 0, 1, false, false⟩
        .both .nanoseconds .none = .ok l ∧ l.length = 3)
    ∧ (∃ l, datetime_range_i64 trivialTzAuthority 10 0 .none (some 3) ⟨0, 0, 0, 1, false, false⟩
        .right .nanoseconds .none = .ok l ∧ l.length = 2) := by
  constructor
  · obtain ⟨l, hl, hlen⟩ := claim9_periods_length trivialTzAuthority 10 0 3
      ⟨0, 0, 0, 1, false, false⟩ .both .nanoseconds (by decide) (by decide) (by decide) (by decide)
    exact ⟨l, hl, hlen⟩
  · obtain ⟨l, hl, hlen⟩ := claim9_periods_length trivialTzAuthority 10 0 3
      ⟨0, 0, 0, 1, false, false⟩ .right .nanoseconds (by decide) (by decide) (by decide) (by decide)
    exact ⟨l, hl, hlen⟩

/-- A closure that fails identically makes the nonnull traversal fail as
soon as the column holds one non-null value. -/
theorem tryMapOpt_err_of_mem (f : Int → PolarsRes Int) (E : PolarsError)
    (hf : ∀ x, f x = .err E) :
    ∀ (xs : List (Option Int)), (∃ t, some t ∈ xs) → tryMapOpt f xs = .err E := by
  intro xs
  induction xs with
  | nil => rintro ⟨t, ht⟩; cases ht
  | cons hd tl ih =>
    rintro ⟨t, ht⟩
    cases hd with
    | none =>
      have : ∃ t, some t ∈ tl := by
        rcases List.mem_cons.mp ht with h | h
        · cases h
        · exact ⟨t, h⟩
      rw [tryMapOpt, ih this]
      rfl
    | some x =>
      rw [tryMapOpt, hf x]
      rfl

/-- C4 counterexample: the generator returns an empty vector, not a
ComputeError, when start exceeds end even though the interval is negative
(the emptiness early-return precedes the positivity check). -/
theorem claim4_counterexample :
    datetime_range_i64 trivialTzAuthority 10 10 (some 0) .none ⟨0, 0, 0, 1, true, false⟩
        .both .nanoseconds .none = .ok []
    ∧ ∀ msg, (PolarsRes.ok ([] : List Int)) ≠ .err (.computeError msg) := by
  exact ⟨by decide, fun msg h => by cases h⟩

theorem is_zero_fields (d : Duration) (h : d.is_zero = true) :
    d.months = 0 ∧ d.weeks = 0 ∧ d.days = 0 ∧ d.nanoseconds = 0 := by
  simp [Duration.is_zero] at h
  exact ⟨h.1.1.1, h.1.1.2, h.1.2, h.2⟩

theorem to_i64_zero_of_is_zero (d : Duration) (h : d.is_zero = true) (tu : TimeUnit) :
    d.to_i64 tu = 0 := by
  obtain ⟨_, _, _, hns⟩ := is_zero_fields d h
  cases tu <;>
    simp [Duration.to_i64, Duration.duration_ns, Duration.duration_us, Duration.duration_ms, hns]

/-- C4 amended.  Zero and negative intervals are rejected as documented
except in two places: the range generator returns an empty vector without
any check when end is given and start > end (so the rejection only holds
when start ≤ end, or end is absent), and the Datetime round fast path
(naive or UTC zone) hits a remainder-by-zero abort on a zero duration when
the column holds a non-null value, instead of an InvalidOperation.  In
detail: the generator fails with ComputeError on a negative-or-zero
interval; Duration round/truncate fail with ComputeError for a negative
every and InvalidOperation for a zero-unit every; Datetime round/truncate
fail with ComputeError for a negative every; Datetime truncate and the
non-naive-zone Datetime round fail with InvalidOperation for a zero every;
the naive-zone Datetime round aborts on a zero every.  In every case the
failure happens before any loop is entered. -/
theorem claim4_interval_validation :
    (∀ (auth : TzAuthority) (fuel : Nat) (start : Int) (endv periods : Option Int)
        (interval : Duration) (closed : ClosedWindow) (tu : TimeUnit) (tz : Option Tz),
        (∀ e0, endv = some e0 → start ≤ e0) →
        (interval.negative = true ∨ interval.is_zero = true) →
        datetime_range_i64 auth fuel start endv periods interval closed tu tz
          = .err (.computeError "interval must be positive"))
    ∧ (∀ (values : List (Option Int)) (tu : TimeUnit) (every : Duration),
        every.negative = true →
        duration_round values tu every
          = .err (.computeError "cannot round a Duration to a negative duration"))
    ∧ (∀ (values : List (Option Int)) (tu : TimeUnit) (every : Duration),
        every.negative = false → every.is_constant_duration .none = true →
        every.to_i64 tu = 0 →
        duration_round values tu every
          = .err (.invalidOperation "every duration cannot be zero"))
    ∧ (∀ (values : List (Option Int)) (tu : TimeUnit) (tzs : Option String)
        (s : String) (d : Duration),
        Duration.parse s = .ok d → d.negative = true →
        duration_truncate values tu tzs [some s] "0ns"
          = .err (.computeError "cannot truncate a Duration to a negative duration"))
    ∧ (∀ (values : List (Option Int)) (tu : TimeUnit) (tzs : Option String)
        (s : String) (d : Duration),
        Duration.parse s = .ok d → d.negative = false →
        d.is_constant_duration tzs = true → d.to_i64 tu = 0 →
        duration_truncate values tu tzs [some s] "0ns"
          = .err (.invalidOperation "duration cannot be zero"))
    ∧ (∀ (wa : WindowAuthority) (ca : DatetimeChunked) (tz : Option Tz)
        (s : String) (d : Duration),
        Duration.parse s = .ok d → d.negative = true →
        datetime_round wa ca [some s] tz
          = .err (.computeError "cannot round a Datetime to a negative duration"))
    ∧ (∀ (wa : WindowAuthority) (ca : DatetimeChunked) (tz : Option Tz)
        (s : String) (d : Duration),
        Duration.parse s = .ok d → d.is_zero = true → d.negative = false →
        ca.time_zone = .none → (∃ t, some t ∈ ca.values) →
        datetime_round wa ca [some s] tz
          = .err (.panicError "attempt to calculate the remainder with a divisor of zero"))
    ∧ (∀ (wa : WindowAuthority) (ca : DatetimeChunked) (tz : Option Tz)
        (s : String) (d : Duration) (z : String),
        Duration.parse s = .ok d → d.is_zero = true → d.negative = false →
        ca.time_zone = some z → z ≠ "UTC" → (∃ t, some t ∈ ca.values) →
        datetime_round wa ca [some s] tz
          = .err (.invalidOperation "duration cannot be zero"))
    ∧ (∀ (wa : WindowAuthority) (ca : DatetimeChunked) (tz : Option Tz)
        (s : String) (d : Duration),
        Duration.parse s = .ok d → d.negative = true →
        datetime_truncate wa ca tz [some s] "0ns"
          = .err (.computeError "cannot truncate a Datetime to a negative duration"))
    ∧ (∀ (wa : WindowAuthority) (ca : DatetimeChunked) (tz : Option Tz)
        (s : String) (d : Duration),
        Duration.parse s = .ok d → d.is_zero = true → d.negative = false →
        (∃ t, some t ∈ ca.values) →
        datetime_truncate wa ca tz [some s] "0ns"
          = .err (.invalidOperation "duration cannot be zero")) := by
  have h0ns : Duration.parse "0ns" = .ok ⟨0, 0, 0, 0, false, false⟩ := by decide
  refine ⟨?_, ?_, ?_, ?_, ?_, ?_, ?_, ?_, ?_, ?_⟩
  · intro auth fuel start endv periods interval closed tu tz hend hbad
    cases endv with
    | none => rcases hbad with h | h <;> simp [datetime_range_i64, h]
    | some e0 =>
      have hse : ¬ (e0 < start) := not_lt.mpr (hend e0 rfl)
      rcases hbad with h | h <;> simp [datetime_range_i64, h, hse]
  · intro values tu every h
    simp [duration_round, h]
  · intro values tu every h1 h2 h3
    simp [duration_round, h1, h2, h3]
  · intro values tu tzs s d hparse hd
    simp [duration_truncate, h0ns, hparse, hd, PolarsRes.bind, Duration.is_zero]
  · intro values tu tzs s d hparse h1 h2 h3
    simp [duration_truncate, h0ns, hparse, h1, h2, h3, PolarsRes.bind, Duration.is_zero]
  · intro wa ca tz s d hparse hd
    simp [datetime_round, hparse, hd, PolarsRes.bind]
  · intro wa ca tz s d hparse hz hneg htz hmem
    obtain ⟨hm, hw, hdd, hns⟩ := is_zero_fields d hz
    have hto : d.to_i64 ca.time_unit = 0 := to_i64_zero_of_is_zero d hz ca.time_unit
    have hf : ∀ x, round_half_away_closure (d.to_i64 ca.time_unit) x
        = .err (.panicError "attempt to calculate the remainder with a divisor of zero") := by
      intro x
      rw [hto]
      simp [round_half_away_closure]
    simp only [datetime_round, hparse, PolarsRes.bind, hneg, Bool.false_eq_true, if_false, htz]
    rw [if_pos (by simp [hm, hw])]
    rw [tryMapOpt_err_of_mem _ _ hf ca.values hmem]
    rfl
  · intro wa ca tz s d z hparse hz hneg htz hzU hmem
    obtain ⟨hm, hw, hdd, hns⟩ := is_zero_fields d hz
    have hf : ∀ x, (Window.new d d (Duration.new 0)).round wa (dayLenOf ca.time_unit)
        (nsDivOf ca.time_unit) x tz = .err (.invalidOperation "duration cannot be zero") := by
      intro x
      simp [Window.round, Window.new, hneg, hz]
    simp only [datetime_round, hparse, PolarsRes.bind, hneg, Bool.false_eq_true, if_false, htz]
    rw [if_neg (by simp [hzU])]
    rw [tryMapOpt_err_of_mem _ _ hf ca.values hmem]
    rfl
  · intro wa ca tz s d hparse hd
    simp [datetime_truncate, h0ns, hparse, hd, PolarsRes.bind]
  · intro wa ca tz s d hparse hz hneg hmem
    have hf : ∀ x, (Window.new d d ⟨0, 0, 0, 0, false, false⟩).truncate wa
        (dayLenOf ca.time_unit) (nsDivOf ca.time_unit) x tz
        = .err (.invalidOperation "duration cannot be zero") := by
      intro x
      simp [Window.truncate, Window.new, hneg, hz]
    simp only [datetime_truncate, h0ns, hparse, PolarsRes.bind, hneg, Bool.false_eq_true, if_false]
    rw [tryMapOpt_err_of_mem _ _ hf ca.values hmem]
    rfl

/-- C4 witness: concrete rejections of a negative interval by the range
generator (with start below end), a negative every by Duration round and a
zero every by Datetime truncate on a non-null column. -/
theorem claim4_interval_validation_witness :
    datetime_range_i64 trivialTzAuthority 10 0 (some 10) .none ⟨0, 0, 0, 1, true, false⟩
        .both .nanoseconds .none = .err (.computeError "interval must be positive")
    ∧ duration_round [some 7] .nanoseconds ⟨0, 0, 0, 5, true, false⟩
        = .err (.computeError "cannot round a Duration to a negative duration")
    ∧ datetime_truncate trivialWindowAuthority ⟨[some 7], .nanoseconds, .none, .not⟩ .none
        [some "0ns"] "0ns" = .err (.invalidOperation "duration cannot be zero")
    ∧ datetime_round trivialWindowAuthority ⟨[some 7], .nanoseconds, .none, .not⟩
        [some "0ns"] .none
        = .err (.panicError "attempt to calculate the remainder with a divisor of zero") := by
  refine ⟨?_, ?_, ?_, ?_⟩
  · exact claim4_interval_validation.1 trivialTzAuthority 10 0 (some 10) .none
      ⟨0, 0, 0, 1, true, false⟩ .both .nanoseconds .none
      (fun e0 he => by cases he; decide) (Or.inl rfl)
  · exact claim4_interval_validation.2.1 [some 7] .nanoseconds ⟨0, 0, 0, 5, true, false⟩ rfl
  · exact claim4_interval_validation.2.2.2.2.2.2.2.2.2 trivialWindowAuthority
      ⟨[some 7], .nanoseconds, .none, .not⟩ .none "0ns" ⟨0, 0, 0, 0, false, false⟩
      (by decide) (by decide) (by decide) ⟨7, by decide⟩
  · exact claim4_interval_validation.2.2.2.2.2.2.1 trivialWindowAuthority
      ⟨[some 7], .nanoseconds, .none, .not⟩ .none "0ns" ⟨0, 0, 0, 0, false, false⟩
      (by decide) (by decide) (by decide) (by decide) ⟨7, by decide⟩

theorem parse_zero_ns : Duration.parse "0ns" = .ok ⟨0, 0, 0, 0, false, false⟩ := by decide

/-- C2 counterexample: truncating the Duration value -5 to 10 units yields
0, which is strictly greater than -5, so the claimed round trip
truncate(t, d) ≤ t fails for negative t. -/
theorem claim2_counterexample :
    duration_truncate [some (-5)] .nanoseconds .none [some "10ns"] "0ns" = .ok [some 0]
    ∧ ¬((0 : Int) ≤ -5) := by
  exact ⟨by decide, by decide⟩

/-- C2 amended.  Duration truncation with a positive constant every and no
timezone subtracts the Rust remainder, which truncates toward zero: the
result is always an exact multiple of the duration, and the bucket round
trip truncate(t, d) ≤ t < truncate(t, d) + d holds for t ≥ 0, while for
t < 0 the mirrored bounds t ≤ truncate(t, d) < t + d hold instead. -/
theorem claim2_truncate_toward_zero (values : List (Option Int)) (tu : TimeUnit)
    (s : String) (d : Duration) (hparse : Duration.parse s = .ok d)
    (hneg : d.negative = false) (hconst : d.is_constant_duration .none = true)
    (he : 0 < d.to_i64 tu) :
    duration_truncate values tu .none [some s] "0ns"
      = .ok (values.map (Option.map (fun t => t - rustRem t (d.to_i64 tu))))
    ∧ ∀ t : Int,
        (d.to_i64 tu) ∣ (t - rustRem t (d.to_i64 tu))
        ∧ (0 ≤ t → t - rustRem t (d.to_i64 tu) ≤ t
            ∧ t < t - rustRem t (d.to_i64 tu) + d.to_i64 tu)
        ∧ (t < 0 → t ≤ t - rustRem t (d.to_i64 tu)
            ∧ t - rustRem t (d.to_i64 tu) < t + d.to_i64 tu) := by
  constructor
  · simp [duration_truncate, parse_zero_ns, hparse, hneg, hconst, PolarsRes.bind, he.ne',
      Duration.is_zero]
  · intro t
    refine ⟨dvd_sub_rustRem t _, fun ht => ?_, fun ht => ?_⟩
    · have hb := rustRem_bounds_nonneg ht he
      omega
    · have hb := rustRem_bounds_nonpos (le_of_lt ht) he
      omega

/-- C2 witness: truncating 17 and -17 to 10 nanosecond units. -/
theorem claim2_truncate_toward_zero_witness :
    duration_truncate [some 17, some (-17)] .nanoseconds .none [some "10ns"] "0ns"
      = .ok [some 10, some (-10)]
    ∧ ((10 : Int) ∣ (17 - rustRem 17 10)
        ∧ (0 ≤ (17 : Int) → 17 - rustRem 17 10 ≤ 17 ∧ (17 : Int) < 17 - rustRem 17 10 + 10)
        ∧ ((17 : Int) < 0 → (17 : Int) ≤ 17 - rustRem 17 10
            ∧ 17 - rustRem 17 10 < 17 + 10)) := by
  have h := claim2_truncate_toward_zero [some 17, some (-17)] .nanoseconds "10ns"
    ⟨0, 0, 0, 10, false, false⟩ (by decide) (by decide) (by decide) (by decide)
  exact ⟨h.1.trans (by decide), h.2 17⟩

/-- Exactly-halfway arithmetic of the shared round closure: with bucket
anchor 0 and positive even every, the halfway value goes to the boundary
farther from zero. -/
theorem half_away_halfway (e m q t : Int) (hm : e = 2 * m) (hmpos : 0 < m)
    (ht : t = q * e + m) :
    t + rustDiv (Int.sign t * e) 2 - rustRem (t + rustDiv (Int.sign t * e) 2) e
      = if 0 ≤ t then (q + 1) * e else q * e := by
  have h2 : (2 : Int) ∣ 2 * m := ⟨m, rfl⟩
  have hcancel := Int.mul_tdiv_cancel' h2
  have htne : t ≠ 0 := by
    intro h0
    have hfac : t = m * (2 * q + 1) := by rw [ht, hm]; ring
    rw [h0] at hfac
    have := mul_eq_zero.mp hfac.symm
    omega
  by_cases hpos : 0 ≤ t
  · have htpos : 0 < t := lt_of_le_of_ne hpos (Ne.symm htne)
    rw [Int.sign_eq_one_of_pos htpos, one_mul]
    have hdiv : rustDiv e 2 = m := by
      rw [hm]
      unfold rustDiv
      omega
    rw [hdiv]
    have harg : t + m = (q + 1) * e := by rw [ht, hm]; ring
    rw [harg, rustRem_mul_self, if_pos hpos]
    ring
  · push_neg at hpos
    rw [Int.sign_eq_neg_one_of_neg hpos]
    have hdiv : rustDiv (-1 * e) 2 = -m := by
      rw [hm, show (-1 : Int) * (2 * m) = -(2 * m) by ring]
      unfold rustDiv
      rw [Int.neg_tdiv]
      omega
    rw [hdiv]
    have harg : t + -m = q * e := by rw [ht]; ring
    rw [harg, rustRem_mul_self, if_neg (not_le.mpr hpos)]
    ring

/-- C7.  Rounding resolves exact halfway values away from zero: for an
instant exactly halfway between bucket boundaries q * e and (q + 1) * e
(anchor 0, positive even every e parsed from the scalar every column), both
the Datetime fast path and the Duration round return the boundary farther
from zero, which is (q + 1) * e for positive t and q * e for negative t. -/
theorem claim7_round_ties_away (wa : WindowAuthority) (srt : IsSorted)
    (s : String) (e m q t : Int)
    (hparse : Duration.parse s = .ok ⟨0, 0, 0, e, false, false⟩)
    (hm : e = 2 * m) (hmpos : 0 < m) (ht : t = q * e + m) :
    datetime_round wa ⟨[some t], .nanoseconds, .none, srt⟩ [some s] .none
      = .ok ⟨[some (if 0 ≤ t then (q + 1) * e else q * e)], .nanoseconds, .none, .not⟩
    ∧ duration_round [some t] .nanoseconds ⟨0, 0, 0, e, false, false⟩
      = .ok [some (if 0 ≤ t then (q + 1) * e else q * e)] := by
  have hene : e ≠ 0 := by omega
  have hcl : round_half_away_closure e t = .ok (if 0 ≤ t then (q + 1) * e else q * e) := by
    unfold round_half_away_closure
    rw [if_neg hene]
    rw [half_away_halfway e m q t hm hmpos ht]
  constructor
  · simp only [datetime_round, hparse, PolarsRes.bind]
    rw [if_neg (by simp)]
    rw [if_pos (by simp)]
    simp only [Duration.to_i64, Duration.duration_ns]
    simp [tryMapOpt, hcl, PolarsRes.bind, PolarsRes.map]
  · simp only [duration_round]
    rw [if_neg (by simp)]
    rw [if_neg (by simp [Duration.is_constant_duration])]
    simp only [Duration.to_i64, Duration.duration_ns]
    rw [if_neg (by simpa using hene)]
    have hfor : t + rustDiv (Int.sign t * e) 2 - rustRem (t + rustDiv (Int.sign t * e) 2) e
        = if 0 ≤ t then (q + 1) * e else q * e := half_away_halfway e m q t hm hmpos ht
    simp [hfor]

/-- C7 witness: round(5, every = 10) = 10 and round(-5, every = 10) = -10
on both the Datetime and the Duration engines. -/
theorem claim7_round_ties_away_witness :
    datetime_round trivialWindowAuthority ⟨[some 5], .nanoseconds, .none, .not⟩
        [some "10ns"] .none = .ok ⟨[some 10], .nanoseconds, .none, .not⟩
    ∧ datetime_round trivialWindowAuthority ⟨[some (-5)], .nanoseconds, .none, .not⟩
        [some "10ns"] .none = .ok ⟨[some (-10)], .nanoseconds, .none, .not⟩
    ∧ duration_round [some 5] .nanoseconds ⟨0, 0, 0, 10, false, false⟩ = .ok [some 10]
    ∧ duration_round [some (-5)] .nanoseconds ⟨0, 0, 0, 10, false, false⟩
      = .ok [some (-10)] := by
  have hp := claim7_round_ties_away trivialWindowAuthority .not "10ns" 10 5 0 5
    (by decide) (by decide) (by decide) (by decide)
  have hn := claim7_round_ties_away trivialWindowAuthority .not "10ns" 10 5 (-1) (-5)
    (by decide) (by decide) (by decide) (by decide)
  exact ⟨hp.1.trans (by decide), hn.1.trans (by decide),
    hp.2.trans (by decide), hn.2.trans (by decide)⟩

/-- Null rows pass through the nonnull traversal untouched. -/
theorem tryMapOpt_ok_null (f : Int → PolarsRes Int) :
    ∀ (xs out : List (Option Int)), tryMapOpt f xs = .ok out →
      ∀ i : Nat, xs.get? i = some .none → out.get? i = some .none := by
  intro xs
  induction xs with
  | nil => intro out hok i hi; simp at hi
  | cons x xs ih =>
    intro out hok i hi
    cases x with
    | none =>
      rw [tryMapOpt] at hok
      cases hrec : tryMapOpt f xs with
      | err e => rw [hrec] at hok; simp [PolarsRes.map] at hok
      | ok out' =>
        rw [hrec] at hok
        simp only [PolarsRes.map] at hok
        injection hok with hout
        subst hout
        cases i with
        | zero => rfl
        | succ n => exact ih out' hrec n (by simpa using hi)
    | some v =>
      rw [tryMapOpt] at hok
      cases hv : f v with
      | err e => rw [hv] at hok; simp [PolarsRes.bind] at hok
      | ok y =>
        rw [hv] at hok
        simp only [PolarsRes.bind] at hok
        cases hrec : tryMapOpt f xs with
        | err e => rw [hrec] at hok; simp [PolarsRes.map] at hok
        | ok out' =>
          rw [hrec] at hok
          simp only [PolarsRes.map] at hok
          injection hok with hout
          subst hout
          cases i with
          | zero => simp at hi
          | succ n => exact ih out' hrec n (by simpa using hi)

/-- A successful zip determines each output row from the closure on the
corresponding input rows. -/
theorem try_binary_elementwise_ok_get {α β : Type}
    (f : Option α → Option β → PolarsRes (Option Int)) :
    ∀ (xs : List (Option α)) (ys : List (Option β)) (out : List (Option Int)),
      try_binary_elementwise f xs ys = .ok out →
      ∀ (i : Nat) (a : Option α) (b : Option β),
        xs.get? i = some a → ys.get? i = some b →
        ∃ v, f a b = .ok v ∧ out.get? i = some v := by
  intro xs
  induction xs with
  | nil => intro ys out hok i a b ha hb; simp at ha
  | cons x xs ih =>
    intro ys out hok i a b ha hb
    cases ys with
    | nil => simp at hb
    | cons y ys =>
      rw [try_binary_elementwise] at hok
      cases hf : f x y with
      | err e => rw [hf] at hok; simp [PolarsRes.bind] at hok
      | ok v =>
        rw [hf] at hok
        simp only [PolarsRes.bind] at hok
        cases hrec : try_binary_elementwise f xs ys with
        | err e => rw [hrec] at hok; simp [PolarsRes.map] at hok
        | ok out' =>
          rw [hrec] at hok
          simp only [PolarsRes.map] at hok
          injection hok with hout
          subst hout
          cases i with
          | zero =>
            simp only [List.get?] at ha hb
            injection ha with ha2
            injection hb with hb2
            subst ha2
            subst hb2
            exact ⟨v, hf, rfl⟩
          | succ n => exact ih ys out' hrec n a b (by simpa using ha) (by simpa using hb)

/-- A successful values-zip emits null for every row with a null operand. -/
theorem try_binary_elementwise_values_ok_null {α : Type} (f : Int → α → PolarsRes Int) :
    ∀ (xs : List (Option Int)) (ys : List (Option α)) (out : List (Option Int)),
      try_binary_elementwise_values f xs ys = .ok out →
      ∀ (i : Nat) (a : Option Int) (b : Option α),
        xs.get? i = some a → ys.get? i = some b → (a = .none ∨ b = .none) →
        out.get? i = some .none := by
  intro xs
  induction xs with
  | nil => intro ys out hok i a b ha hb hnull; simp at ha
  | cons x xs ih =>
    intro ys out hok i a b ha hb hnull
    cases ys with
    | nil => simp at hb
    | cons y ys =>
      cases x with
      | some xv =>
        cases y with
        | some yv =>
          rw [try_binary_elementwise_values] at hok
          cases hf : f xv yv with
          | err e => rw [hf] at hok; simp [PolarsRes.bind] at hok
          | ok v =>
            rw [hf] at hok
            simp only [PolarsRes.bind] at hok
            cases hrec : try_binary_elementwise_values f xs ys with
            | err e => rw [hrec] at hok; simp [PolarsRes.map] at hok
            | ok out' =>
              rw [hrec] at hok
              simp only [PolarsRes.map] at hok
              injection hok with hout
              subst hout
              cases i with
              | zero =>
                simp only [List.get?] at ha hb
                injection ha with ha2
                injection hb with hb2
                subst ha2
                subst hb2
                rcases hnull with h | h <;> cases h
              | succ n =>
                exact ih ys out' hrec n a b (by simpa using ha) (by simpa using hb) hnull
        | none =>
          have hok2 : (try_binary_elementwise_values f xs ys).map
              (fun r => (Option.none : Option Int) :: r) = .ok out := hok
          clear hok
          cases hrec : try_binary_elementwise_values f xs ys with
          | err e => rw [hrec] at hok2; simp [PolarsRes.map] at hok2
          | ok out' =>
            rw [hrec] at hok2
            simp only [PolarsRes.map] at hok2
            injection hok2 with hout
            subst hout
            cases i with
            | zero => rfl
            | succ n =>
              exact ih ys out' hrec n a b (by simpa using ha) (by simpa using hb) hnull
      | none =>
        have hok2 : (try_binary_elementwise_values f xs ys).map
            (fun r => (Option.none : Option Int) :: r) = .ok out := hok
        clear hok
        cases hrec : try_binary_elementwise_values f xs ys with
        | err e => rw [hrec] at hok2; simp [PolarsRes.map] at hok2
        | ok out' =>
          rw [hrec] at hok2
          simp only [PolarsRes.map] at hok2
          injection hok2 with hout
          subst hout
          cases i with
          | zero => rfl
          | succ n =>
            exact ih ys out' hrec n a b (by simpa using ha) (by simpa using hb) hnull

/-- With both columns of length at least two the broadcast combinator is
the plain zip. -/
theorem broadcast_eq_zip {α β : Type} (f : Option α → Option β → PolarsRes (Option Int))
    (xs : List (Option α)) (ys : List (Option β))
    (hx : 2 ≤ xs.length) (hy : 2 ≤ ys.length) :
    broadcast_try_binary_elementwise f xs ys = try_binary_elementwise f xs ys := by
  match xs, ys with
  | x1 :: x2 :: xs, y1 :: y2 :: ys => rfl
  | [], _ => simp at hx
  | [x1], _ => simp at hx
  | _ :: _ :: _, [] => simp at hy
  | _ :: _ :: _, [y1] => simp at hy

/-- The general (length at least two) arm of Datetime round is the
broadcast zip of the row closure. -/
theorem datetime_round_general_eq (wa : WindowAuthority) (ca : DatetimeChunked)
    (tz : Option Tz) (e1 e2 : Option String) (evs : List (Option String)) :
    datetime_round wa ca (e1 :: e2 :: evs) tz
      = (broadcast_try_binary_elementwise (datetimeRoundRow wa ca.time_unit tz)
          ca.values (e1 :: e2 :: evs)).map
          (fun vs => ⟨vs, ca.time_unit, ca.time_zone, .not⟩) := by
  cases e1 <;> rfl

/-- The general arm of Datetime truncate is the plain zip of the row
closure, once the offset string has parsed. -/
theorem datetime_truncate_general_eq (wa : WindowAuthority) (ca : DatetimeChunked)
    (tz : Option Tz) (offsetStr : String) (od : Duration)
    (hoff : Duration.parse offsetStr = .ok od)
    (e1 e2 : Option String) (evs : List (Option String)) :
    datetime_truncate wa ca tz (e1 :: e2 :: evs) offsetStr
      = (try_binary_elementwise (datetimeTruncRow wa ca.time_unit tz od)
          ca.values (e1 :: e2 :: evs)).map
          (fun vs => ⟨vs, ca.time_unit, ca.time_zone, .not⟩) := by
  unfold datetime_truncate
  rw [hoff]
  cases e1 <;> rfl

/-- The general arm of replace_time_zone is the values zip of the
conversion, once both zones have parsed. -/
theorem replace_time_zone_general_eq (db : String → Option Tz)
    (conv : Tz → Tz → Int → String → PolarsRes Int) (dt : DatetimeChunked)
    (tzArg : Option String) (ft tt : Tz)
    (hfrom : db (dt.time_zone.getD "UTC") = some ft)
    (hto : db (tzArg.getD "UTC") = some tt)
    (a1 a2 : Option String) (ambs : List (Option String)) :
    replace_time_zone db conv dt tzArg (a1 :: a2 :: ambs)
      = (try_binary_elementwise_values (fun timestamp amb => conv ft tt timestamp amb)
          dt.values (a1 :: a2 :: ambs)).map
          (fun vs => ⟨vs, dt.time_unit, tzArg, dt.sorted⟩) := by
  unfold replace_time_zone parse_time_zone
  rw [hfrom, hto]
  cases a1 <;> rfl

/-- C8.  Null propagation of the element-wise engines: a null scalar
duration/policy parameter forces an all-null output column of the input
length; a null instant or a null per-row duration/policy operand makes the
row closure return null without error, and any successful column-level call
carries those nulls to the output rows. -/
theorem claim8_null_propagation :
    (∀ (wa : WindowAuthority) (ca : DatetimeChunked) (tz : Option Tz),
      datetime_round wa ca [.none] tz
        = .ok ⟨full_null ca.values.length, ca.time_unit, ca.time_zone, .not⟩)
    ∧ (∀ (wa : WindowAuthority) (tu : TimeUnit) (tz : Option Tz)
        (a : Option Int) (b : Option String), (a = .none ∨ b = .none) →
        datetimeRoundRow wa tu tz a b = .ok .none)
    ∧ (∀ (wa : WindowAuthority) (ca : DatetimeChunked) (evs : List (Option String))
        (tz : Option Tz) (out : DatetimeChunked),
        2 ≤ ca.values.length → 2 ≤ evs.length →
        datetime_round wa ca evs tz = .ok out →
        ∀ (i : Nat) (a : Option Int) (b : Option String),
          ca.values.get? i = some a → evs.get? i = some b →
          (a = .none ∨ b = .none) → out.values.get? i = some .none)
    ∧ (∀ (wa : WindowAuthority) (ca : DatetimeChunked) (s : String) (tz : Option Tz)
        (out : DatetimeChunked),
        datetime_round wa ca [some s] tz = .ok out →
        ∀ i : Nat, ca.values.get? i = some .none → out.values.get? i = some .none)
    ∧ (∀ (wa : WindowAuthority) (ca : DatetimeChunked) (tz : Option Tz)
        (offsetStr : String) (od : Duration), Duration.parse offsetStr = .ok od →
        datetime_truncate wa ca tz [.none] offsetStr
          = .ok ⟨full_null ca.values.length, ca.time_unit, ca.time_zone, .not⟩)
    ∧ (∀ (wa : WindowAuthority) (tu : TimeUnit) (tz : Option Tz) (off : Duration)
        (a : Option Int) (b : Option String), (a = .none ∨ b = .none) →
        datetimeTruncRow wa tu tz off a b = .ok .none)
    ∧ (∀ (wa : WindowAuthority) (ca : DatetimeChunked) (evs : List (Option String))
        (tz : Option Tz) (offsetStr : String) (out : DatetimeChunked), 2 ≤ evs.length →
        datetime_truncate wa ca tz evs offsetStr = .ok out →
        ∀ (i : Nat) (a : Option Int) (b : Option String),
          ca.values.get? i = some a → evs.get? i = some b →
          (a = .none ∨ b = .none) → out.values.get? i = some .none)
    ∧ (∀ (values : List (Option Int)) (tu : TimeUnit) (tzs : Option String),
        duration_truncate values tu tzs [.none] "0ns" = .ok (full_null values.length))
    ∧ (∀ (tu : TimeUnit) (tzs : Option String) (a : Option Int) (b : Option String),
        (a = .none ∨ b = .none) → durationTruncRow tu tzs a b = .ok .none)
    ∧ (∀ (db : String → Option Tz) (conv : Tz → Tz → Int → String → PolarsRes Int)
        (dt : DatetimeChunked) (tzArg : Option String) (ft tt : Tz),
        db (dt.time_zone.getD "UTC") = some ft → db (tzArg.getD "UTC") = some tt →
        replace_time_zone db conv dt tzArg [.none]
          = .ok ⟨dt.values.map (fun _ => .none), dt.time_unit, tzArg, dt.sorted⟩)
    ∧ (∀ (db : String → Option Tz) (conv : Tz → Tz → Int → String → PolarsRes Int)
        (dt : DatetimeChunked) (tzArg : Option String) (ambs : List (Option String))
        (out : DatetimeChunked), 2 ≤ ambs.length →
        replace_time_zone db conv dt tzArg ambs = .ok out →
        ∀ (i : Nat) (a : Option Int) (b : Option String),
          dt.values.get? i = some a → ambs.get? i = some b →
          (a = .none ∨ b = .none) → out.values.get? i = some .none)
    ∧ (∀ (db : String → Option Tz) (conv : Tz → Tz → Int → String → PolarsRes Int)
        (dt : DatetimeChunked) (tzArg : Option String) (amb : String)
        (out : DatetimeChunked),
        replace_time_zone db conv dt tzArg [some amb] = .ok out →
        ∀ i : Nat, dt.values.get? i = some .none → out.values.get? i = some .none) := by
  have hrowRound : ∀ (wa : WindowAuthority) (tu : TimeUnit) (tz : Option Tz)
      (a : Option Int) (b : Option String), (a = .none ∨ b = .none) →
      datetimeRoundRow wa tu tz a b = .ok .none := by
    intro wa tu tz a b hnull
    rcases hnull with h | h
    · subst h; rfl
    · subst h; cases a with
      | none => rfl
      | some av => rfl
  have hrowTrunc : ∀ (wa : WindowAuthority) (tu : TimeUnit) (tz : Option Tz) (off : Duration)
      (a : Option Int) (b : Option String), (a = .none ∨ b = .none) →
      datetimeTruncRow wa tu tz off a b = .ok .none := by
    intro wa tu tz off a b hnull
    rcases hnull with h | h
    · subst h; rfl
    · subst h; cases a with
      | none => rfl
      | some av => rfl
  have hrowDur : ∀ (tu : TimeUnit) (tzs : Option String)
      (a : Option Int) (b : Option String), (a = .none ∨ b = .none) →
      durationTruncRow tu tzs a b = .ok .none := by
    intro tu tzs a b hnull
    rcases hnull with h | h
    · subst h; rfl
    · subst h; cases a with
      | none => rfl
      | some av => rfl
  refine ⟨fun wa ca tz => rfl, hrowRound, ?_, ?_, ?_, hrowTrunc, ?_, ?_, hrowDur, ?_, ?_, ?_⟩
  · -- round, general path
    intro wa ca evs tz out h2ca h2evs hok i a b ha hb hnull
    rcases evs with _ | ⟨e1, evs'⟩
    · simp at h2evs
    rcases evs' with _ | ⟨e2, evs''⟩
    · simp at h2evs
    rw [datetime_round_general_eq] at hok
    have hok2 := hok
    rw [broadcast_eq_zip _ _ _ h2ca (by simp)] at hok2
    cases hzip : try_binary_elementwise (datetimeRoundRow wa ca.time_unit tz)
        ca.values (e1 :: e2 :: evs'') with
    | err e => rw [hzip] at hok2; simp [PolarsRes.map] at hok2
    | ok vs =>
      rw [hzip] at hok2
      simp only [PolarsRes.map] at hok2
      injection hok2 with hout
      obtain ⟨v, hv, hget⟩ := try_binary_elementwise_ok_get _ _ _ _ hzip i a b ha hb
      rw [hrowRound wa ca.time_unit tz a b hnull] at hv
      injection hv with hv2
      rw [← hout]
      rw [← hv2] at hget
      exact hget
  · -- round, scalar path keeps null instants null
    intro wa ca s tz out hok i hi
    simp only [datetime_round] at hok
    cases hp : Duration.parse s with
    | err e => rw [hp] at hok; simp [PolarsRes.bind] at hok
    | ok d =>
      rw [hp] at hok
      simp only [PolarsRes.bind] at hok
      by_cases hneg : d.negative = true
      · rw [if_pos hneg] at hok; simp at hok
      · rw [if_neg hneg] at hok
        by_cases hc : ((ca.time_zone == Option.none || ca.time_zone == some "UTC")
            && d.months == 0 && d.weeks == 0) = true
        · rw [if_pos hc] at hok
          cases hmap : tryMapOpt (round_half_away_closure (d.to_i64 ca.time_unit)) ca.values with
          | err e => rw [hmap] at hok; simp [PolarsRes.map] at hok
          | ok vs =>
            rw [hmap] at hok
            simp only [PolarsRes.map] at hok
            injection hok with hout
            rw [← hout]
            exact tryMapOpt_ok_null _ _ _ hmap i hi
        · rw [if_neg hc] at hok
          cases hmap : tryMapOpt (fun t => (Window.new d d (Duration.new 0)).round wa
              (dayLenOf ca.time_unit) (nsDivOf ca.time_unit) t tz) ca.values with
          | err e => rw [hmap] at hok; simp [PolarsRes.map] at hok
          | ok vs =>
            rw [hmap] at hok
            simp only [PolarsRes.map] at hok
            injection hok with hout
            rw [← hout]
            exact tryMapOpt_ok_null _ _ _ hmap i hi
  · -- truncate, null scalar duration
    intro wa ca tz offsetStr od hod
    simp [datetime_truncate, hod, PolarsRes.bind]
  · -- truncate, general path
    intro wa ca evs tz offsetStr out h2evs hok i a b ha hb hnull
    rcases evs with _ | ⟨e1, evs'⟩
    · simp at h2evs
    rcases evs' with _ | ⟨e2, evs''⟩
    · simp at h2evs
    cases hoff : Duration.parse offsetStr with
    | err e =>
      rw [show datetime_truncate wa ca tz (e1 :: e2 :: evs'') offsetStr = .err e by
        unfold datetime_truncate; rw [hoff]; rfl] at hok
      cases hok
    | ok od =>
      rw [datetime_truncate_general_eq wa ca tz offsetStr od hoff] at hok
      have hok2 := hok
      cases hzip : try_binary_elementwise (datetimeTruncRow wa ca.time_unit tz od)
          ca.values (e1 :: e2 :: evs'') with
      | err e => rw [hzip] at hok2; simp [PolarsRes.map] at hok2
      | ok vs =>
        rw [hzip] at hok2
        simp only [PolarsRes.map] at hok2
        injection hok2 with hout
        obtain ⟨v, hv, hget⟩ := try_binary_elementwise_ok_get _ _ _ _ hzip i a b ha hb
        rw [hrowTrunc wa ca.time_unit tz od a b hnull] at hv
        injection hv with hv2
        rw [← hout]
        rw [← hv2] at hget
        exact hget
  · -- duration truncate, null scalar duration
    intro values tu tzs
    simp [duration_truncate, parse_zero_ns, PolarsRes.bind, Duration.is_zero]
  · -- replace_time_zone, null scalar policy
    intro db conv dt tzArg ft tt hft htt
    simp [replace_time_zone, parse_time_zone, hft, htt, PolarsRes.bind, PolarsRes.map]
  · -- replace_time_zone, per-row policy column
    intro db conv dt tzArg ambs out h2 hok i a b ha hb hnull
    rcases ambs with _ | ⟨a1, ambs'⟩
    · simp at h2
    rcases ambs' with _ | ⟨a2, ambs''⟩
    · simp at h2
    cases hfrom : db (dt.time_zone.getD "UTC") with
    | none =>
      rw [show replace_time_zone db conv dt tzArg (a1 :: a2 :: ambs'')
          = .err (.computeError ("unable to parse time zone: " ++ dt.time_zone.getD "UTC")) by
        unfold replace_time_zone parse_time_zone; rw [hfrom]; rfl] at hok
      cases hok
    | some ft =>
      cases hto : db (tzArg.getD "UTC") with
      | none =>
        rw [show replace_time_zone db conv dt tzArg (a1 :: a2 :: ambs'')
            = .err (.computeError ("unable to parse time zone: " ++ tzArg.getD "UTC")) by
          unfold replace_time_zone parse_time_zone; rw [hfrom, hto]; rfl] at hok
        cases hok
      | some tt =>
        rw [replace_time_zone_general_eq db conv dt tzArg ft tt hfrom hto] at hok
        have hok2 := hok
        cases hzip : try_binary_elementwise_values (fun timestamp amb => conv ft tt timestamp amb)
            dt.values (a1 :: a2 :: ambs'') with
        | err e => rw [hzip] at hok2; simp [PolarsRes.map] at hok2
        | ok vs =>
          rw [hzip] at hok2
          simp only [PolarsRes.map] at hok2
          injection hok2 with hout
          rw [← hout]
          exact try_binary_elementwise_values_ok_null _ _ _ _ hzip i a b ha hb hnull
  · -- replace_time_zone, scalar policy keeps null instants null
    intro db conv dt tzArg amb out hok i hi
    simp only [replace_time_zone, parse_time_zone] at hok
    cases hfrom : db (dt.time_zone.getD "UTC") with
    | none => rw [hfrom] at hok; simp [PolarsRes.bind] at hok
    | some ft =>
      rw [hfrom] at hok
      simp only [PolarsRes.bind] at hok
      cases hto : db (tzArg.getD "UTC") with
      | none => rw [hto] at hok; simp [PolarsRes.bind] at hok
      | some tt =>
        rw [hto] at hok
        simp only [PolarsRes.bind] at hok
        cases hmap : tryMapOpt (fun timestamp => conv ft tt timestamp amb) dt.values with
        | err e => rw [hmap] at hok; simp [PolarsRes.map] at hok
        | ok vs =>
          rw [hmap] at hok
          simp only [PolarsRes.map] at hok
          injection hok with hout
          rw [← hout]
          exact tryMapOpt_ok_null _ _ _ hmap i hi

/-- C8 witness: a null scalar duration gives a full-null column, a null
per-row operand gives a null row, and a successful general-path round call
carries a null instant through to the output. -/
theorem claim8_null_propagation_witness :
    datetime_round trivialWindowAuthority ⟨[some 1, .none], .nanoseconds, .none, .not⟩
        [.none] .none = .ok ⟨[.none, .none], .nanoseconds, .none, .not⟩
    ∧ datetimeRoundRow trivialWindowAuthority .nanoseconds .none .none (some "1ns")
      = .ok .none
    ∧ (⟨[.none, some 5], .nanoseconds, some "UTC", .not⟩ : DatetimeChunked).values.get? 0
        = some .none := by
  refine ⟨?_, ?_, ?_⟩
  · exact (claim8_null_propagation.1 trivialWindowAuthority
      ⟨[some 1, .none], .nanoseconds, .none, .not⟩ .none).trans (by decide)
  · exact claim8_null_propagation.2.1 trivialWindowAuthority .nanoseconds .none .none
      (some "1ns") (Or.inl rfl)
  · exact claim8_null_propagation.2.2.2.2.2.2.2.2.2.2.2 toyTzDb toyConvert
      ⟨[.none, some 5], .nanoseconds, .none, .not⟩ (some "UTC") "earliest"
      ⟨[.none, some 5], .nanoseconds, some "UTC", .not⟩ (by decide) 0 (by decide)

/-- C3 (code bug evaluated at the failing input).  On a nanosecond column
with no timezone and the duration value 1s in every row, the scalar
broadcast path adds one second in nanoseconds while the general per-row
path adds through the hardcoded microsecond add, so the two paths disagree
on the same logical input. -/
theorem claim3_date_offset_paths_diverge :
    date_offset_datetime trivialTzAuthority (fun _ => .none) ⟨[0, 0], [true, true]⟩
        .ascending .nanoseconds .none ⟨["1s"], [true]⟩
      = .ok (⟨[1000000000, 1000000000], [true, true]⟩, .ascending)
    ∧ date_offset_datetime trivialTzAuthority (fun _ => .none) ⟨[0, 0], [true, true]⟩
        .ascending .nanoseconds .none ⟨["1s", "1s"], [true, true]⟩
      = .ok (⟨[1000000, 1000000], [true, true]⟩, .not)
    ∧ (1000000 : Int) ≠ 1000000000 := by
  exact ⟨by decide, by decide, by decide⟩

/-- C5 (code bug evaluated at the failing input).  With a per-row ambiguous
policy column of length two, replace_time_zone still copies the ascending
sortedness flag of the input onto the output. -/
theorem claim5_flag_preserved_for_per_row_policy :
    replace_time_zone toyTzDb toyConvert ⟨[some 0, some 1], .nanoseconds, .none, .ascending⟩
        (some "UTC") [some "earliest", some "latest"]
      = .ok ⟨[some 0, some 1], .nanoseconds, some "UTC", .ascending⟩
    ∧ IsSorted.ascending ≠ IsSorted.not := by
  exact ⟨by decide, by decide⟩

/-- C6 counterexample: with a zone string that parses neither as a named
zone nor as a fixed offset, the kernel aborts with a panic whose message
contains Could not parse timezone; it does not return a ComputeError. -/
theorem claim6_counterexample :
    cast_timezone toyChronoOps "foo" "UTC" [0]
      = .err (.panicError "Could not parse timezone foo")
    ∧ ∀ msg, (PolarsRes.err (α := List Int) (.panicError "Could not parse timezone foo"))
        ≠ .err (.computeError msg) := by
  refine ⟨by decide, fun msg h => ?_⟩
  injection h with h2
  cases h2

/-- C6 amended.  Whenever the from zone or the to zone parses neither as a
named zone nor as a fixed offset, the conversion kernel applied to a
non-empty array aborts with a panic whose message is
"Could not parse timezone " followed by the offending string, instead of
returning a ComputeError value. -/
theorem claim6_cast_timezone_panic (P : ChronoOps) (fromz toz : String)
    (v : Int) (rest : List Int) :
    (P.parseNamed fromz = .none → P.parseOffset fromz = .none →
      cast_timezone P fromz toz (v :: rest)
        = .err (.panicError ("Could not parse timezone " ++ fromz)))
    ∧ (∀ ft, P.parseNamed fromz = some ft →
        P.parseNamed toz = .none → P.parseOffset toz = .none →
        cast_timezone P fromz toz (v :: rest)
          = .err (.panicError ("Could not parse timezone " ++ toz)))
    ∧ (∀ fo, P.parseNamed fromz = .none → P.parseOffset fromz = some fo →
        P.parseNamed toz = .none → P.parseOffset toz = .none →
        cast_timezone P fromz toz (v :: rest)
          = .err (.panicError ("Could not parse timezone " ++ toz))) := by
  refine ⟨fun h1 h2 => ?_, fun ft h1 h2 h3 => ?_, fun fo h1 h2 h3 h4 => ?_⟩
  · simp [cast_timezone, tryCollect, cast_timezone_value, h1, h2, PolarsRes.bind]
  · simp [cast_timezone, tryCollect, cast_timezone_value, h1, h2, h3, PolarsRes.bind]
  · simp [cast_timezone, tryCollect, cast_timezone_value, h1, h2, h3, h4, PolarsRes.bind]

/-- C6 witness: concrete unparseable from and to zones. -/
theorem claim6_cast_timezone_panic_witness :
    cast_timezone toyChronoOps "foo" "UTC" [0]
      = .err (.panicError "Could not parse timezone foo")
    ∧ cast_timezone toyChronoOps "UTC" "bar" [0]
      = .err (.panicError "Could not parse timezone bar") := by
  constructor
  · exact (claim6_cast_timezone_panic toyChronoOps "foo" "UTC" 0 []).1 (by decide) (by decide)
  · exact (claim6_cast_timezone_panic toyChronoOps "UTC" "bar" 0 []).2.1 "UTC"
      (by decide) (by decide) (by decide)

/-- C10.  business_day_count_impl on equal-length Date columns is exactly
the element-wise wrapped i32 difference end - start, with nulls propagating
through the subtraction and never an error; no day is ever excluded. -/
theorem claim10_business_day_count (starts ends : List (Option Int))
    (hlen : starts.length = ends.length) :
    business_day_count_impl starts ends
      = .ok (List.zipWith (fun e s =>
          match e, s with
          | some x, some y => some (wrap32 (x - y))
          | _, _ => .none) ends starts) := by
  unfold business_day_count_impl int32_sub
  rw [if_pos hlen.symm]

/-- C10 witness: concrete columns with a null on each side. -/
theorem claim10_business_day_count_witness :
    business_day_count_impl [some 3, .none, some 10] [some 7, some 5, .none]
      = .ok [some 4, .none, .none] := by
  exact (claim10_business_day_count [some 3, .none, some 10] [some 7, some 5, .none]
    (by decide)).trans (by decide)

end Polars
